import Mathlib

/-!
Verification development for the react-resplit split-layout resize engine
(`src/lib/Root.tsx`, `src/lib/utils.ts`, `src/lib/Pane.tsx`, `src/lib/Splitter.tsx`).

The engine is shallowly embedded:

* JavaScript numbers are idealised as `JsNum`: either an exact rational
  (floating rounding is outside the claims, which are stated "within floating
  rounding") or one of the IEEE special values `Infinity`, `-Infinity`, `NaN`,
  with JavaScript semantics for `+`, `-`, `/`, `<=`, `<`.  This keeps the
  division-by-zero behaviour of `convertPxToFr` observable.
* A CSS size string such as `"0.3fr"` or `"10px"` is `SizeValue`: the unit
  together with the numeric payload.  The code only ever produces such strings
  from numbers (template literals), so string equality coincides with equality
  of `SizeValue` (note `"NaNfr" === "NaNfr"` holds, matching `decide`-equality
  of the `nan` constructor).
* The DOM/React state touched by `ResplitRoot` is `RState`: the ordered list of
  registered children (registration in ascending order 0,1,2,… as the children
  mount, so list index = `order`), the `--resplit-N` custom properties
  (`sizes`), the `data-resplit-collapsed` attributes (`collapsed`), the
  `aria-valuenow` attributes (`aria`), the active-splitter ref, the container
  extent and the direction.  Attribute maps are association lists keyed by
  order.
* A JavaScript `TypeError` (property access on `undefined`) is `Except.error
  JsErr.typeError`; handlers that can throw return `Except JsErr _`.  An
  uncaught throw aborts the handler (mutations already performed are kept by
  the real DOM; the claims below only use the fact that the handler throws).
* `onResize`/`onResizeStart` notification hooks are fire-and-forget; the
  embedding returns the list of notifications the handler would deliver
  (order, new size) instead of calling functions.
-/

/-- An idealised JavaScript number: exact rational or an IEEE special value. -/
inductive JsNum where
  | fin (q : ℚ)
  | posInf
  | negInf
  | nan
deriving DecidableEq, Repr

namespace JsNum

/-- JavaScript addition. -/
def add : JsNum → JsNum → JsNum
  | nan, _ => nan
  | _, nan => nan
  | posInf, negInf => nan
  | negInf, posInf => nan
  | posInf, _ => posInf
  | _, posInf => posInf
  | negInf, _ => negInf
  | _, negInf => negInf
  | fin a, fin b => fin (a + b)

/-- JavaScript negation. -/
def neg : JsNum → JsNum
  | fin a => fin (-a)
  | posInf => negInf
  | negInf => posInf
  | nan => nan

/-- JavaScript subtraction. -/
def sub (a b : JsNum) : JsNum := add a (neg b)

/-- JavaScript division (only the finite/zero cases matter to the engine;
`0/0` is `NaN`, `x/0` is a signed infinity). -/
def div : JsNum → JsNum → JsNum
  | fin a, fin b =>
      if b = 0 then (if a = 0 then nan else if 0 < a then posInf else negInf)
      else fin (a / b)
  | fin a, posInf => if a = 0 then fin 0 else fin 0
  | fin _, negInf => fin 0
  | posInf, fin b => if 0 ≤ b then posInf else negInf
  | negInf, fin b => if 0 ≤ b then negInf else posInf
  | _, _ => nan

/-- JavaScript `<=` (any comparison with `NaN` is false). -/
def le : JsNum → JsNum → Bool
  | nan, _ => false
  | _, nan => false
  | negInf, _ => true
  | _, posInf => true
  | posInf, _ => false
  | _, negInf => false
  | fin a, fin b => decide (a ≤ b)

/-- JavaScript `<` (any comparison with `NaN` is false). -/
def lt : JsNum → JsNum → Bool
  | nan, _ => false
  | _, nan => false
  | posInf, _ => false
  | _, negInf => false
  | negInf, _ => true
  | _, posInf => true
  | fin a, fin b => decide (a < b)

/-- `Number.prototype.toFixed(2)` as a rational rounding (round half away from
zero at two decimals); special values print as themselves. -/
def toFixed2 : JsNum → JsNum
  | fin q => fin ((if 0 ≤ q then (⌊q * 100 + 1 / 2⌋ : ℚ) else -(⌊-q * 100 + 1 / 2⌋ : ℚ)) / 100)
  | posInf => posInf
  | negInf => negInf
  | nan => nan

end JsNum

/-- A CSS size custom-property value: the template literals of the source
produce either a px string or an fr string. -/
inductive SizeValue where
  | px (v : JsNum)
  | fr (v : JsNum)
deriving DecidableEq, Repr

/-- `convertFrToNumber` from `src/lib/utils.ts`:
`Number(val.replace('fr', ''))` — applied to a px string this leaves `"…px"`
in place, and `Number` of it is `NaN`. -/
def convertFrToNumber : SizeValue → JsNum
  | .fr v => v
  | .px _ => .nan

/-- `convertPxToNumber` from `src/lib/utils.ts`. -/
def convertPxToNumber : SizeValue → JsNum
  | .px v => v
  | .fr _ => .nan

/-- `convertPxToFr` from `src/lib/utils.ts`:
an unguarded JavaScript division rendered into an fr string. -/
def convertPxToFr (px containerSize : JsNum) : SizeValue :=
  .fr (JsNum.div px containerSize)

/-- `isPx` from `src/lib/utils.ts` (`val.includes('px')`). -/
def isPx : SizeValue → Bool
  | .px _ => true
  | .fr _ => false

/-- The inline minimum-size normalisation of `resizeByDelta`
(`src/lib/Root.tsx` lines 192–196): `convertFrToNumber(isPx(minSize) ?
convertPxToFr(convertPxToNumber(minSize), rootSize) : minSize)`. -/
def minSizeAsFrNumber (minSize : SizeValue) (rootSize : JsNum) : JsNum :=
  convertFrToNumber
    (if isPx minSize then convertPxToFr (convertPxToNumber minSize) rootSize else minSize)

example : convertPxToFr (.fin 100) (.fin 1000) = .fr (.fin (1 / 10)) := by
  simp only [convertPxToFr, JsNum.div]
  norm_num
example : convertPxToFr (.fin 100) (.fin 0) = .fr .posInf := by
  simp only [convertPxToFr, JsNum.div]
  norm_num
example : convertPxToFr (.fin 0) (.fin 0) = .fr .nan := by
  simp only [convertPxToFr, JsNum.div]
  norm_num

/-- A registered child (`ChildrenState` entry in `src/lib/Root.tsx`): a pane
with the options recorded at registration (`ResplitPaneOptions` of
`src/lib/Pane.tsx`, with `minSize` defaulted to `'0fr'`, `collapsible` to
`false` and `collapsedSize` to `'0fr'`), or a splitter with its fixed px size.
Notification hooks are not stored; notifications are returned by the handlers
below. -/
inductive Child where
  | pane (minSize : SizeValue) (initialSize : Option JsNum) (collapsible : Bool)
      (collapsedSize : SizeValue)
  | splitter (size : JsNum)
deriving DecidableEq, Repr

/-- `(children[order] as PaneChild).minSize`: a splitter has no `minSize`
property, so the cast reads `undefined` (`none`). -/
def Child.minSizeProp : Child → Option SizeValue
  | .pane m _ _ _ => some m
  | .splitter _ => none

def Child.isSplitter : Child → Bool
  | .pane _ _ _ _ => false
  | .splitter _ => true

/-- A JavaScript `TypeError` (property access on `undefined`). -/
inductive JsErr where
  | typeError
deriving DecidableEq, Repr

/-- Association-list update keyed by order (models setting a DOM attribute or
CSS custom property). -/
def setA {α : Type} (k : ℕ) (v : α) : List (ℕ × α) → List (ℕ × α)
  | [] => [(k, v)]
  | (k', v') :: rest => if k = k' then (k, v) :: rest else (k', v') :: setA k v rest

/-- Association-list lookup. -/
def getA {α : Type} (k : ℕ) : List (ℕ × α) → Option α
  | [] => none
  | (k', v') :: rest => if k = k' then some v' else getA k rest

/-- The engine-visible state owned by a mounted `ResplitRoot`. -/
structure RState where
  /-- Registered children; list index = `order` (children mount in ascending
  order, so `Object.keys(children)` enumerates `0 … length-1`). -/
  children : List Child
  /-- The `--resplit-N` custom properties on the root element; absent means the
  property was never set (`getChildSize` then yields the empty string). -/
  sizes : List (ℕ × SizeValue)
  /-- The `data-resplit-collapsed` attributes; absent reads as `false`. -/
  collapsed : List (ℕ × Bool)
  /-- The `aria-valuenow` attributes written by `setChildSize`. -/
  aria : List (ℕ × JsNum)
  /-- `activeSplitterOrder.current`. -/
  activeSplitterOrder : Option ℕ
  /-- Container extent along the active axis (`getRootSize()`), externally
  owned and read fresh on each resolver call. -/
  rootSize : JsNum
deriving DecidableEq, Repr

/-- `getChildSizeAsNumber` (`src/lib/Root.tsx` lines 115–121): unset property
reads as `0`, otherwise px or fr payload. -/
def getChildSizeAsNumber (s : RState) (order : ℕ) : JsNum :=
  match getA order s.sizes with
  | none => .fin 0
  | some v => if isPx v then convertPxToNumber v else convertFrToNumber v

/-- `getPaneCollapsed` (`src/lib/Root.tsx` lines 136–137): a missing element or
attribute reads as `false`. -/
def getPaneCollapsed (s : RState) (order : ℕ) : Bool :=
  (getA order s.collapsed).getD false

/-- `setPaneCollapsed` (`src/lib/Root.tsx` lines 139–140): writes the attribute
if the child element exists, else a silent no-op. -/
def setPaneCollapsedFn (s : RState) (order : ℕ) (b : Bool) : RState :=
  if order < s.children.length then { s with collapsed := setA order b s.collapsed } else s

/-- `setChildSize` (`src/lib/Root.tsx` lines 123–134): always sets the custom
property, then reads `children[order]` — a `TypeError` if no child is
registered there — and, for a pane, mirrors the value (as an fr number rounded
by `toFixed(2)`) into `aria-valuenow` of the element at `order + 1` when that
element exists. -/
def setChildSizeFn (s : RState) (order : ℕ) (size : SizeValue) :
    Except JsErr RState :=
  let s1 : RState := { s with sizes := setA order size s.sizes }
  match s.children[order]? with
  | none => .error .typeError
  | some (.pane _ _ _ _) =>
      if order + 1 < s.children.length then
        .ok { s1 with aria := setA (order + 1) (JsNum.toFixed2 (convertFrToNumber size)) s1.aria }
      else
        .ok s1
  | some (.splitter _) => .ok s1

/-- The backward skip-scan of `resizeByDelta` (`src/lib/Root.tsx` lines
154–166), entered only when `delta < 0`, starting at index `splitterOrder - 1`:
skip a splitter or a child whose collapsed attribute is set; take the first
other child; fall off the front (`prevPaneIndex < 0`) with `null`.  Reading
`children[i].type` at an unregistered index throws. -/
def scanPrev (s : RState) (i : ℕ) : Except JsErr (Option ℕ) :=
  match s.children[i]? with
  | none => .error .typeError
  | some c =>
      if c.isSplitter || getPaneCollapsed s i then
        match i with
        | 0 => .ok none
        | i' + 1 => scanPrev s i'
      else .ok (some i)

/-- The forward skip-scan of `resizeByDelta` (`src/lib/Root.tsx` lines
172–184), entered only when `delta > 0`, bounded by
`Object.values(children).length`. -/
def scanNext (s : RState) (i : ℕ) : Option ℕ :=
  if _h : i < s.children.length then
    match s.children[i]? with
    | none => none
    | some c =>
        if c.isSplitter || getPaneCollapsed s i then scanNext s (i + 1)
        else some i
  else none
termination_by s.children.length - i

/-- Resolution of the prev pane index in `resizeByDelta` (`src/lib/Root.tsx`
lines 150–166): when shrinking, the backward scan; otherwise the immediate
neighbor `splitterOrder - 1` (`null` when that index is out of range, i.e. the
JS property read yields `undefined`). -/
def resolvePrev (s : RState) (splitterOrder : ℕ) (delta : JsNum) :
    Except JsErr (Option ℕ) :=
  if JsNum.lt delta (.fin 0) then
    match splitterOrder with
    | 0 => .ok none
    | so' + 1 => scanPrev s so'
  else
    match splitterOrder with
    | 0 => .ok none
    | so' + 1 => .ok (if so' < s.children.length then some so' else none)

/-- Resolution of the next pane index in `resizeByDelta` (`src/lib/Root.tsx`
lines 168–184): when growing, the forward scan; otherwise the immediate
neighbor `splitterOrder + 1`. -/
def resolveNext (s : RState) (splitterOrder : ℕ) (delta : JsNum) : Option ℕ :=
  if JsNum.lt (.fin 0) delta then
    scanNext s (splitterOrder + 1)
  else
    if splitterOrder + 1 < s.children.length then some (splitterOrder + 1) else none

/-- The clamp-and-transfer arithmetic of `resizeByDelta` (`src/lib/Root.tsx`
lines 207–215), given the tentative sizes and the min sizes in fr: the pane
whose tentative size is `≤` its min is "collapsed"; the prev side is clamped
first and its remainder transferred to the next side, then the next side. -/
def clampPair (prevSize0 nextSize0 prevMin nextMin : JsNum) : JsNum × JsNum :=
  let prevIsCollapsed := JsNum.le prevSize0 prevMin
  let nextIsCollapsed := JsNum.le nextSize0 nextMin
  let p1 := if prevIsCollapsed then prevMin else prevSize0
  let n1 := if prevIsCollapsed then JsNum.add nextSize0 (JsNum.sub prevSize0 prevMin) else nextSize0
  let p2 := if nextIsCollapsed then JsNum.add p1 (JsNum.sub n1 nextMin) else p1
  let n2 := if nextIsCollapsed then nextMin else n1
  (p2, n2)

/-- `resizeByDelta` (`src/lib/Root.tsx` lines 146–224).  Returns the updated
state together with the `onResize` notifications `(order, new fr size)` it
delivers, or the `TypeError` the handler would throw.  Notes kept faithful to
the source: if either side resolves to `null` the call returns with no effect;
the min sizes are read through `prevPane.minSize` — when `delta ≥ 0` the
"pane" may actually be a splitter object casted to `PaneChild`, whose missing
`minSize` makes `isPx` throw; the collapsed flags persisted are the tentative
comparisons computed before any clamping. -/
def resizeByDelta (s : RState) (splitterOrder : ℕ) (delta : JsNum) :
    Except JsErr (RState × List (ℕ × JsNum)) := do
  let prevOpt ← resolvePrev s splitterOrder delta
  let nextOpt := resolveNext s splitterOrder delta
  match prevOpt, nextOpt with
  | some prevIdx, some nextIdx =>
      match s.children[prevIdx]?.bind Child.minSizeProp,
            s.children[nextIdx]?.bind Child.minSizeProp with
      | some prevMinSize, some nextMinSize =>
          let rootSize := s.rootSize
          let prevPaneSize := JsNum.add (getChildSizeAsNumber s prevIdx) delta
          let prevPaneMinSize := minSizeAsFrNumber prevMinSize rootSize
          let prevPaneIsCollapsed := JsNum.le prevPaneSize prevPaneMinSize
          let nextPaneSize := JsNum.sub (getChildSizeAsNumber s nextIdx) delta
          let nextPaneMinSize := minSizeAsFrNumber nextMinSize rootSize
          let nextPaneIsCollapsed := JsNum.le nextPaneSize nextPaneMinSize
          let pair := clampPair prevPaneSize nextPaneSize prevPaneMinSize nextPaneMinSize
          let s1 ← setChildSizeFn s prevIdx (.fr pair.1)
          let s2 := setPaneCollapsedFn s1 prevIdx prevPaneIsCollapsed
          let s3 ← setChildSizeFn s2 nextIdx (.fr pair.2)
          let s4 := setPaneCollapsedFn s3 nextIdx nextPaneIsCollapsed
          .ok (s4, [(prevIdx, pair.1), (nextIdx, pair.2)])
      | _, _ => .error .typeError
  | _, _ => .ok (s, [])

/-- `initialSize` read through a `PaneChild` cast (`undefined` on a splitter). -/
def Child.initialSizeProp : Child → Option JsNum
  | .pane _ i _ _ => i
  | .splitter _ => none

/-- One iteration of the re-derivation layout effect (`src/lib/Root.tsx` lines
397–409): a pane is reset to `'0fr'` when its collapsed attribute is set, else
to its `initialSize` (any registered fr string, `'0fr'` included, is truthy) or
to `` `${1 / paneCount}fr` ``; a splitter is reset to its fixed px size. -/
def rederiveStep (paneCount : ℕ) (s : RState) (order : ℕ) : Except JsErr RState :=
  match s.children[order]? with
  | none => .error .typeError
  | some (.pane _ initialSize _ _) =>
      let paneSize : SizeValue :=
        if getPaneCollapsed s order then .fr (.fin 0)
        else .fr (initialSize.getD (JsNum.div (.fin 1) (.fin (paneCount : ℚ))))
      setChildSizeFn s order paneSize
  | some (.splitter v) => setChildSizeFn s order (.px v)

/-- The `Object.keys(children).forEach` loop of the re-derivation effect. -/
def rederiveAux (paneCount : ℕ) (s : RState) : List ℕ → Except JsErr RState
  | [] => .ok s
  | o :: rest => do
      let s1 ← rederiveStep paneCount s o
      rederiveAux paneCount s1 rest

/-- `Object.values(children).filter(child => child.type === 'pane').length`. -/
def paneCountOf (s : RState) : ℕ :=
  (s.children.filter (fun c => !c.isSplitter)).length

/-- The re-derivation layout effect (`src/lib/Root.tsx` lines 392–411), run
whenever the number of registered children changes: `paneCount` is computed
once, then every registered order is reset in ascending order. -/
def rederive (s : RState) : Except JsErr RState :=
  rederiveAux (paneCountOf s) s (List.range s.children.length)

/-- The loop body of `setPaneSizes` (`src/lib/Root.tsx` lines 381–387): the
`index`-th provided size is written to order `index * 2`, and that child's
collapsed attribute is set to the string comparison
`(children[order] as PaneChild).minSize === paneSize` (a splitter's missing
`minSize` compares unequal to any string). -/
def setPaneSizesAux : RState → ℕ → List JsNum → Except JsErr RState
  | s, _, [] => .ok s
  | s, index, v :: rest => do
      let order := index * 2
      let s1 ← setChildSizeFn s order (.fr v)
      let s2 := setPaneCollapsedFn s1 order
        (decide ((s1.children[order]?.bind Child.minSizeProp) = some (.fr v)))
      setPaneSizesAux s2 (index + 1) rest

/-- `setPaneSizes` (`src/lib/Root.tsx` lines 381–387).  It calls no
notification hook, hence the empty notification list. -/
def setPaneSizesFn (s : RState) (paneSizes : List JsNum) :
    Except JsErr (RState × List (ℕ × JsNum)) :=
  (setPaneSizesAux s 0 paneSizes).map (fun s' => (s', []))

/-- Direction prop of the root. -/
inductive Direction where
  | horizontal
  | vertical
deriving DecidableEq, Repr

/-- Keyboard keys distinguished by `handleSplitterKeyDown`. -/
inductive Key where
  | arrowLeft
  | arrowUp
  | arrowRight
  | arrowDown
  | homeKey
  | endKey
  | enter
  | other
deriving DecidableEq, Repr

/-- `handleSplitterKeyDown` (`src/lib/Root.tsx` lines 335–359).  Arrow keys
are gated on the root direction; `Enter` reads the collapsed attribute of the
immediate prev order (a missing element reads `false`) and, when collapsed,
uses `initialSize || '1fr'` of `children[splitterOrder - 1]` (a `TypeError` if
that child is unregistered) as the delta; any other key falls through all
branches. -/
def handleSplitterKeyDown (direction : Direction) (s : RState) (splitterOrder : ℕ)
    (key : Key) : Except JsErr (RState × List (ℕ × JsNum)) :=
  let isHorizontal := direction = Direction.horizontal
  let isVertical := direction = Direction.vertical
  if (key = Key.arrowLeft ∧ isHorizontal) ∨ (key = Key.arrowUp ∧ isVertical) then
    resizeByDelta s splitterOrder (.fin (-(1 / 100)))
  else if (key = Key.arrowRight ∧ isHorizontal) ∨ (key = Key.arrowDown ∧ isVertical) then
    resizeByDelta s splitterOrder (.fin (1 / 100))
  else if key = Key.homeKey then
    resizeByDelta s splitterOrder (.fin (-1))
  else if key = Key.endKey then
    resizeByDelta s splitterOrder (.fin 1)
  else if key = Key.enter then
    if (if splitterOrder = 0 then false else getPaneCollapsed s (splitterOrder - 1)) then
      match s.children[splitterOrder - 1]? with
      | none => .error .typeError
      | some c => resizeByDelta s splitterOrder ((c.initialSizeProp).getD (.fin 1))
    else resizeByDelta s splitterOrder (.fin (-1))
  else .ok (s, [])

/-- `handleSplitterMouseDown` (`src/lib/Root.tsx` lines 302–327): records the
active splitter, then unconditionally reads `children[order - 1].type` and
`children[order + 1].type` to fire `onResizeStart` on pane neighbors — a
`TypeError` when either neighbor is unregistered (`order - 1` is `-1` for a
splitter at order `0`).  Returns the orders whose `onResizeStart` fires. -/
def handleSplitterMouseDown (s : RState) (order : ℕ) : Except JsErr (RState × List ℕ) :=
  let s1 : RState := { s with activeSplitterOrder := some order }
  match (if order = 0 then none else s1.children[order - 1]?) with
  | none => .error .typeError
  | some prevC =>
      match s1.children[order + 1]? with
      | none => .error .typeError
      | some nextC =>
          let notifs := (if prevC.isSplitter then [] else [order - 1]) ++
            (if nextC.isSplitter then [] else [order + 1])
          .ok (s1, notifs)

/-- Externally delivered events that mutate engine state.  `regPane` /
`regSplitter` model `registerPane` / `registerSplitter` for the standard
mount sequence in which children register in ascending order (index =
order); `rederiveEv` is the layout effect triggered by a change of the
registered set. -/
inductive Ev where
  | regPane (minSize : SizeValue) (initialSize : Option JsNum) (collapsible : Bool)
      (collapsedSize : SizeValue)
  | regSplitter (size : JsNum)
  | rederiveEv
  | resolveEv (splitterOrder : ℕ) (delta : JsNum)
  | keyEv (direction : Direction) (splitterOrder : ℕ) (key : Key)
  | setSizesEv (paneSizes : List JsNum)
deriving DecidableEq, Repr

/-- One event step.  A handler that throws leaves the modelled state unchanged
(the reachability traces used below never hit an error branch). -/
def step (s : RState) : Ev → RState
  | .regPane m i c cs => { s with children := s.children ++ [.pane m i c cs] }
  | .regSplitter v => { s with children := s.children ++ [.splitter v] }
  | .rederiveEv =>
      match rederive s with
      | .ok s' => s'
      | .error _ => s
  | .resolveEv so d =>
      match resizeByDelta s so d with
      | .ok (s', _) => s'
      | .error _ => s
  | .keyEv dir so k =>
      match handleSplitterKeyDown dir s so k with
      | .ok (s', _) => s'
      | .error _ => s
  | .setSizesEv vs =>
      match setPaneSizesFn s vs with
      | .ok (s', _) => s'
      | .error _ => s

/-- The freshly mounted root: nothing registered, no properties set. -/
def initState (rootSize : JsNum) : RState :=
  ⟨[], [], [], [], none, rootSize⟩

/-- The state reached from a fresh mount by a sequence of events. -/
def run (rootSize : JsNum) (evs : List Ev) : RState :=
  evs.foldl step (initState rootSize)

lemma getA_setA_self {α : Type} (k : ℕ) (v : α) (l : List (ℕ × α)) :
    getA k (setA k v l) = some v := by
  induction l with
  | nil => simp [getA, setA]
  | cons hd tl ih =>
      obtain ⟨k', v'⟩ := hd
      by_cases h : k = k'
      · simp [getA, setA, h]
      · simp [getA, setA, h, ih]

lemma getA_setA_ne {α : Type} {k k' : ℕ} (h : k ≠ k') (v : α) (l : List (ℕ × α)) :
    getA k (setA k' v l) = getA k l := by
  induction l with
  | nil => simp [getA, setA, h]
  | cons hd tl ih =>
      obtain ⟨k'', v''⟩ := hd
      by_cases h' : k' = k''
      · subst h'
        simp [getA, setA, h]
      · by_cases h'' : k = k''
        · subst h''
          simp [getA, setA, h', ih]
        · simp [getA, setA, h', h'', ih]

/-- Layout for the collapse test of C1: pane 0 has `minSize='0.2fr'`,
`collapsible=true`, `collapsedSize='0fr'`, current size `0.3fr`; pane 2 has
`minSize='0fr'`, current size `0.7fr`; container 1000px. -/
def c1State : RState :=
  ⟨[Child.pane (.fr (.fin (1 / 5))) none true (.fr (.fin 0)),
    Child.splitter (.fin 10),
    Child.pane (.fr (.fin 0)) none false (.fr (.fin 0))],
   [(0, .fr (.fin (3 / 10))), (1, .px (.fin 10)), (2, .fr (.fin (7 / 10)))],
   [], [], none, .fin 1000⟩

/-- The state `resizeByDelta(1, -0.25)` actually produces from `c1State`. -/
def c1After : RState :=
  ⟨c1State.children,
   [(0, .fr (.fin (1 / 5))), (1, .px (.fin 10)), (2, .fr (.fin (4 / 5)))],
   [(0, true), (2, false)],
   [(1, .fin (1 / 5))],
   none, .fin 1000⟩

/-- C1: the resolver is claimed to collapse a neighbor pane exactly when it is
collapsible and its tentative size is at most half its minimum, clamping a
collapsed pane to its `collapsedSize` — with `minSize=0.2fr`,
`collapsible=true`, `collapsedSize=0fr`, current `0.3fr`,
`resolve(splitter, -0.25)` claimed to yield size `0fr` with the full `0.3fr`
transferred.  The code (`src/lib/Root.tsx` lines 191–215) instead ignores
`collapsible`/`collapsedSize` entirely: it marks the pane collapsed because
`0.05 ≤ 0.2` (the full minimum, not half of it) and clamps it to its
`minSize` `0.2fr`, so the neighbor receives only `0.1fr` (ending at `0.8fr`,
not `1fr`) — contradicting the collapse behaviour documented on the
`collapsible`/`collapsedSize` options in `src/lib/Pane.tsx` lines 27–42. -/
theorem c1_resolver_collapse_at_failing_input :
    resizeByDelta c1State 1 (.fin (-(1 / 4))) =
      .ok (c1After, [(0, .fin (1 / 5)), (2, .fin (4 / 5))]) ∧
    getA 0 c1After.sizes = some (.fr (.fin (1 / 5))) ∧
    getPaneCollapsed c1After 0 = true ∧
    getA 0 c1After.sizes ≠ some (.fr (.fin 0)) ∧
    getA 2 c1After.sizes = some (.fr (.fin (4 / 5))) := by
  refine ⟨?_, ?_, ?_, ?_, ?_⟩ <;>
    norm_num [c1State, c1After, resizeByDelta, resolvePrev, scanPrev, resolveNext, scanNext,
      minSizeAsFrNumber, convertFrToNumber, convertPxToNumber, convertPxToFr, isPx,
      getChildSizeAsNumber, getPaneCollapsed, setPaneCollapsedFn, setChildSizeFn,
      clampPair, getA, setA, JsNum.lt, JsNum.le, JsNum.add, JsNum.sub, JsNum.neg,
      JsNum.div, JsNum.toFixed2, Child.isSplitter, Child.minSizeProp, Except.bind,
      Bind.bind, Pure.pure, Except.pure, Option.bind, Option.getD]

/-- C4 counterexample: `convertPxToFr` (`src/lib/utils.ts` lines 8–10) does not
guard against a zero `containerSize` — `100px` against a `0`-extent container
is `Infinity` fr, not the claimed `0` fr. -/
theorem c4_pxToFr_zero_counterexample :
    convertPxToFr (.fin 100) (.fin 0) ≠ .fr (.fin 0) ∧
    convertPxToFr (.fin 100) (.fin 0) = .fr .posInf := by
  refine ⟨fun h => ?_, by norm_num [convertPxToFr, JsNum.div]⟩
  norm_num [convertPxToFr, JsNum.div] at h
  exact JsNum.noConfusion h

/-- Layout for the C4 propagation conjunct: pane 0 has a pixel `minSize`
(`'100px'`) while the container extent reads `0`. -/
def c4State : RState :=
  ⟨[Child.pane (.px (.fin 100)) none false (.fr (.fin 0)),
    Child.splitter (.fin 10),
    Child.pane (.fr (.fin 0)) none false (.fr (.fin 0))],
   [(0, .fr (.fin (1 / 2))), (1, .px (.fin 10)), (2, .fr (.fin (1 / 2)))],
   [], [], none, .fin 0⟩

/-- C4 amended: the Unit Converter operations are pure and total, but the
pixel-to-fr conversion performs an unguarded JavaScript division: with a
nonzero container it is the exact quotient, with a zero container a positive
pixel count yields `Infinity` fr, and a resolver call that converts a px
`minSize` against a zero container extent persists the non-finite values
`Infinityfr` / `-Infinityfr` into the size state. -/
theorem c4_pxToFr_amended (px cs : ℚ) :
    (cs ≠ 0 → convertPxToFr (.fin px) (.fin cs) = .fr (.fin (px / cs))) ∧
    (0 < px → convertPxToFr (.fin px) (.fin 0) = .fr .posInf) ∧
    (∃ s' notifs, resizeByDelta c4State 1 (.fin (-(1 / 10))) = .ok (s', notifs) ∧
      getA 0 s'.sizes = some (.fr .posInf) ∧ getA 2 s'.sizes = some (.fr .negInf)) := by
  refine ⟨fun h => ?_, fun h => ?_, ?_⟩
  · simp [convertPxToFr, JsNum.div, h]
  · simp [convertPxToFr, JsNum.div, h, not_lt_of_gt h, ne_of_gt h]
  · refine ⟨⟨c4State.children,
      [(0, .fr .posInf), (1, .px (.fin 10)), (2, .fr .negInf)],
      [(0, true), (2, false)], [(1, .posInf)], none, .fin 0⟩,
      [(0, .posInf), (2, .negInf)], ?_, by norm_num [getA], by norm_num [getA]⟩
    norm_num [c4State, resizeByDelta, resolvePrev, scanPrev, resolveNext, scanNext,
      minSizeAsFrNumber, convertFrToNumber, convertPxToNumber, convertPxToFr, isPx,
      getChildSizeAsNumber, getPaneCollapsed, setPaneCollapsedFn, setChildSizeFn,
      clampPair, getA, setA, JsNum.lt, JsNum.le, JsNum.add, JsNum.sub, JsNum.neg,
      JsNum.div, JsNum.toFixed2, Child.isSplitter, Child.minSizeProp, Except.bind,
      Bind.bind, Pure.pure, Except.pure, Option.bind, Option.getD]

/-- C4 witness: the amended statement at `px = 100, cs = 4` and `px = 2`. -/
theorem c4_pxToFr_amended_witness :
    convertPxToFr (.fin 100) (.fin 4) = .fr (.fin 25) ∧
    convertPxToFr (.fin 2) (.fin 0) = .fr .posInf := by
  constructor
  · have h := (c4_pxToFr_amended 100 4).1 (by norm_num)
    norm_num at h
    exact h
  · exact (c4_pxToFr_amended 2 0).2.1 (by norm_num)

/-- A layout consisting of a single splitter registered at order 0: both
neighbors of the splitter are unregistered. -/
def c5State : RState :=
  ⟨[Child.splitter (.fin 10)], [(0, .px (.fin 10))], [], [], none, .fin 1000⟩

/-- C5: with a boundary splitter whose neighbors are missing, the resolver
call is indeed a silent no-op for any delta sign — but the pointer-down
controller wrapper (`src/lib/Root.tsx` lines 302–327) is not: it
unconditionally reads `children[order - 1].type` and throws a `TypeError`,
contradicting the spec's required silent tolerance ("fires onResizeStart on
both adjacent panes if present"). -/
theorem c5_resolver_noop_but_mousedown_throws :
    resizeByDelta c5State 0 (.fin (-(1 / 10))) = .ok (c5State, []) ∧
    resizeByDelta c5State 0 (.fin (1 / 10)) = .ok (c5State, []) ∧
    resizeByDelta c5State 0 (.fin 0) = .ok (c5State, []) ∧
    handleSplitterMouseDown c5State 0 = .error .typeError := by
  refine ⟨?_, ?_, ?_, ?_⟩ <;>
    norm_num [c5State, resizeByDelta, resolvePrev, scanPrev, resolveNext, scanNext,
      handleSplitterMouseDown, getPaneCollapsed, getA, JsNum.lt, Child.isSplitter,
      Except.bind, Bind.bind, Pure.pure, Except.pure, Option.bind]

/-- Two equal panes around a splitter, used for the keyboard-mapping
counterexample. -/
def c7State : RState :=
  ⟨[Child.pane (.fr (.fin 0)) none false (.fr (.fin 0)),
    Child.splitter (.fin 10),
    Child.pane (.fr (.fin 0)) none false (.fr (.fin 0))],
   [(0, .fr (.fin (1 / 2))), (1, .px (.fin 10)), (2, .fr (.fin (1 / 2)))],
   [], [], none, .fin 1000⟩

/-- C7 counterexample: the claim maps `ArrowUp` to `resolve(order, -0.01)`
unconditionally, but in a horizontal layout `ArrowUp` falls through every
branch of `handleSplitterKeyDown` (`src/lib/Root.tsx` lines 340–346) and does
nothing, while `resolve(1, -0.01)` does change the sizes. -/
theorem c7_arrowUp_horizontal_counterexample :
    handleSplitterKeyDown .horizontal c7State 1 .arrowUp = .ok (c7State, []) ∧
    resizeByDelta c7State 1 (.fin (-(1 / 100))) ≠ .ok (c7State, []) := by
  constructor
  · rfl
  · intro h
    norm_num [c7State, resizeByDelta, resolvePrev, scanPrev, resolveNext, scanNext,
      minSizeAsFrNumber, convertFrToNumber, convertPxToNumber, convertPxToFr, isPx,
      getChildSizeAsNumber, getPaneCollapsed, setPaneCollapsedFn, setChildSizeFn,
      clampPair, getA, setA, JsNum.lt, JsNum.le, JsNum.add, JsNum.sub, JsNum.neg,
      JsNum.div, JsNum.toFixed2, Child.isSplitter, Child.minSizeProp, Except.bind,
      Bind.bind, Pure.pure, Except.pure, Option.bind, Option.getD] at h

/-- C7 amended: the key-press handler dispatches to the resolver with the
direction-gated mapping of `src/lib/Root.tsx` lines 335–359: `ArrowLeft`
(horizontal) and `ArrowUp` (vertical) map to `resolve(order, -0.01)` — the
mismatched arrow/direction combinations fall through and do nothing —
`ArrowRight` (horizontal) / `ArrowDown` (vertical) to `resolve(order, +0.01)`,
`Home` to `resolve(order, -1)`, `End` to `resolve(order, +1)` and `Enter` to
`resolve(order, initialSize || 1)` when the immediate prev order's collapsed
attribute is set (a `TypeError` if that child is unregistered) and
`resolve(order, -1)` otherwise. -/
theorem c7_keydown_mapping (s : RState) (so : ℕ) :
    handleSplitterKeyDown .horizontal s so .arrowLeft = resizeByDelta s so (.fin (-(1 / 100))) ∧
    handleSplitterKeyDown .vertical s so .arrowUp = resizeByDelta s so (.fin (-(1 / 100))) ∧
    handleSplitterKeyDown .horizontal s so .arrowUp = .ok (s, []) ∧
    handleSplitterKeyDown .vertical s so .arrowLeft = .ok (s, []) ∧
    handleSplitterKeyDown .horizontal s so .arrowRight = resizeByDelta s so (.fin (1 / 100)) ∧
    handleSplitterKeyDown .vertical s so .arrowDown = resizeByDelta s so (.fin (1 / 100)) ∧
    handleSplitterKeyDown .horizontal s so .arrowDown = .ok (s, []) ∧
    handleSplitterKeyDown .vertical s so .arrowRight = .ok (s, []) ∧
    (∀ dir, handleSplitterKeyDown dir s so .homeKey = resizeByDelta s so (.fin (-1))) ∧
    (∀ dir, handleSplitterKeyDown dir s so .endKey = resizeByDelta s so (.fin 1)) ∧
    (∀ dir, handleSplitterKeyDown dir s 0 .enter = resizeByDelta s 0 (.fin (-1))) ∧
    (∀ dir so',
      handleSplitterKeyDown dir s (so' + 1) .enter =
        if getPaneCollapsed s so' then
          match s.children[so']? with
          | none => .error .typeError
          | some c => resizeByDelta s (so' + 1) ((c.initialSizeProp).getD (.fin 1))
        else resizeByDelta s (so' + 1) (.fin (-1))) ∧
    (∀ dir, handleSplitterKeyDown dir s so .other = .ok (s, [])) := by
  refine ⟨rfl, rfl, rfl, rfl, rfl, rfl, rfl, rfl, fun dir => ?_, fun dir => ?_, fun dir => ?_,
    fun dir so' => ?_, fun dir => ?_⟩ <;> cases dir <;> rfl

/-- The skip condition tested by both scan loops of `resizeByDelta`:
the child at the index is a splitter, or its collapsed attribute is set. -/
def codeSkips (s : RState) (k : ℕ) : Bool :=
  (s.children[k]?.elim false Child.isSplitter) || getPaneCollapsed s k


lemma codeSkips_of_getElem (s : RState) (k : ℕ) (c : Child)
    (hc : s.children[k]? = some c) :
    codeSkips s k = (c.isSplitter || getPaneCollapsed s k) := by
  rw [codeSkips, hc, Option.elim_some]

lemma scanPrev_some_iff (s : RState) (i : ℕ) (hi : i < s.children.length) (j : ℕ) :
    scanPrev s i = .ok (some j) ↔
      j ≤ i ∧ codeSkips s j = false ∧ ∀ k, j < k → k ≤ i → codeSkips s k = true := by
  induction i with
  | zero =>
      have hc : s.children[0]? = some s.children[0] := List.getElem?_eq_getElem hi
      have hcs := codeSkips_of_getElem s 0 _ hc
      rw [scanPrev, hc]
      dsimp only
      by_cases hskip : (s.children[0].isSplitter || getPaneCollapsed s 0) = true
      · rw [if_pos hskip]
        constructor
        · intro h
          exact absurd h (by simp)
        · rintro ⟨hj, hns, -⟩
          have hj0 : j = 0 := Nat.le_zero.mp hj
          rw [hj0, hcs, hskip] at hns
          exact absurd hns (by simp)
      · rw [if_neg hskip]
        constructor
        · intro h
          have hj0 : 0 = j := by
            simpa only [Except.ok.injEq, Option.some.injEq] using h
          refine ⟨hj0 ▸ le_refl 0, ?_, fun k hk1 hk2 => absurd (lt_of_lt_of_le hk1 hk2) ?_⟩
          · rw [← hj0, hcs]
            simpa using hskip
          · rw [← hj0]
            exact lt_irrefl 0
        · rintro ⟨hj, -, -⟩
          have hj0 : j = 0 := Nat.le_zero.mp hj
          rw [hj0]
  | succ i ih =>
      have hc : s.children[i + 1]? = some s.children[i + 1] := List.getElem?_eq_getElem hi
      have hcs := codeSkips_of_getElem s (i + 1) _ hc
      rw [scanPrev, hc]
      dsimp only
      by_cases hskip : (s.children[i + 1].isSplitter || getPaneCollapsed s (i + 1)) = true
      · rw [if_pos hskip]
        rw [ih (Nat.lt_of_succ_lt hi)]
        constructor
        · rintro ⟨hj, hns, hall⟩
          refine ⟨Nat.le_succ_of_le hj, hns, fun k hk1 hk2 => ?_⟩
          rcases Nat.lt_or_ge k (i + 1) with h | h
          · exact hall k hk1 (Nat.lt_succ_iff.mp h)
          · have hk : k = i + 1 := le_antisymm hk2 h
            rw [hk, hcs]
            exact hskip
        · rintro ⟨hj, hns, hall⟩
          have hji : j ≠ i + 1 := by
            intro h
            rw [h, hcs, hskip] at hns
            exact absurd hns (by simp)
          refine ⟨Nat.lt_succ_iff.mp (lt_of_le_of_ne hj hji), hns, fun k hk1 hk2 => ?_⟩
          exact hall k hk1 (Nat.le_succ_of_le hk2)
      · rw [if_neg hskip]
        constructor
        · intro h
          have hj : i + 1 = j := by
            simpa only [Except.ok.injEq, Option.some.injEq] using h
          subst hj
          refine ⟨le_refl _, by rw [hcs]; simpa using hskip,
            fun k hk1 hk2 => absurd (lt_of_lt_of_le hk1 hk2) (lt_irrefl _)⟩
        · rintro ⟨hj, hns, hall⟩
          rcases Nat.lt_or_ge j (i + 1) with h | h
          · have hsk := hall (i + 1) h (le_refl _)
            rw [hcs] at hsk
            rw [hsk] at hskip
            exact absurd rfl hskip
          · have : j = i + 1 := le_antisymm hj h
            rw [this]

lemma scanPrev_none_iff (s : RState) (i : ℕ) (hi : i < s.children.length) :
    scanPrev s i = .ok none ↔ ∀ k, k ≤ i → codeSkips s k = true := by
  induction i with
  | zero =>
      have hc : s.children[0]? = some s.children[0] := List.getElem?_eq_getElem hi
      have hcs := codeSkips_of_getElem s 0 _ hc
      rw [scanPrev, hc]
      dsimp only
      by_cases hskip : (s.children[0].isSplitter || getPaneCollapsed s 0) = true
      · rw [if_pos hskip]
        constructor
        · intro _ k hk
          have hk0 : k = 0 := Nat.le_zero.mp hk
          rw [hk0, hcs]
          exact hskip
        · intro _
          rfl
      · rw [if_neg hskip]
        constructor
        · intro h
          exact absurd h (by simp)
        · intro hall
          have := hall 0 (le_refl 0)
          rw [hcs] at this
          rw [this] at hskip
          exact absurd rfl hskip
  | succ i ih =>
      have hc : s.children[i + 1]? = some s.children[i + 1] := List.getElem?_eq_getElem hi
      have hcs := codeSkips_of_getElem s (i + 1) _ hc
      rw [scanPrev, hc]
      dsimp only
      by_cases hskip : (s.children[i + 1].isSplitter || getPaneCollapsed s (i + 1)) = true
      · rw [if_pos hskip]
        rw [ih (Nat.lt_of_succ_lt hi)]
        constructor
        · intro hall k hk
          rcases Nat.lt_or_ge k (i + 1) with h | h
          · exact hall k (Nat.lt_succ_iff.mp h)
          · have hk1 : k = i + 1 := le_antisymm hk h
            rw [hk1, hcs]
            exact hskip
        · intro hall k hk
          exact hall k (Nat.le_succ_of_le hk)
      · rw [if_neg hskip]
        constructor
        · intro h
          exact absurd h (by simp)
        · intro hall
          have := hall (i + 1) (le_refl _)
          rw [hcs] at this
          rw [this] at hskip
          exact absurd rfl hskip

lemma scanNext_some_iff (s : RState) : ∀ n i, s.children.length - i = n → ∀ j,
    (scanNext s i = some j ↔
      i ≤ j ∧ j < s.children.length ∧ codeSkips s j = false ∧
        ∀ k, i ≤ k → k < j → codeSkips s k = true) := by
  intro n
  induction n with
  | zero =>
      intro i hn j
      have hge : s.children.length ≤ i := Nat.le_of_sub_eq_zero hn
      rw [scanNext]
      rw [dif_neg (by omega)]
      constructor
      · intro h
        exact absurd h (by simp)
      · rintro ⟨hij, hjlen, -, -⟩
        omega
  | succ n ihn =>
      intro i hn j
      have hlt : i < s.children.length := by omega
      have hc : s.children[i]? = some s.children[i] := List.getElem?_eq_getElem hlt
      have hcs := codeSkips_of_getElem s i _ hc
      rw [scanNext]
      rw [dif_pos hlt, hc]
      dsimp only
      by_cases hskip : (s.children[i].isSplitter || getPaneCollapsed s i) = true
      · rw [if_pos hskip]
        rw [ihn (i + 1) (by omega) j]
        constructor
        · rintro ⟨hij, hjlen, hns, hall⟩
          refine ⟨by omega, hjlen, hns, fun k hk1 hk2 => ?_⟩
          rcases Nat.lt_or_ge i k with h | h
          · exact hall k (by omega) hk2
          · have hk : k = i := by omega
            rw [hk, hcs]
            exact hskip
        · rintro ⟨hij, hjlen, hns, hall⟩
          have hji : j ≠ i := by
            intro h
            rw [h, hcs, hskip] at hns
            exact absurd hns (by simp)
          refine ⟨by omega, hjlen, hns, fun k hk1 hk2 => hall k (by omega) hk2⟩
      · rw [if_neg hskip]
        constructor
        · intro h
          have hj : i = j := by simpa using h
          subst hj
          refine ⟨le_refl _, hlt, by rw [hcs]; simpa using hskip,
            fun k hk1 hk2 => absurd (lt_of_le_of_lt hk1 hk2) (lt_irrefl _)⟩
        · rintro ⟨hij, hjlen, hns, hall⟩
          rcases Nat.lt_or_ge i j with h | h
          · have hsk := hall i (le_refl _) h
            rw [hcs] at hsk
            rw [hsk] at hskip
            exact absurd rfl hskip
          · have : j = i := by omega
            rw [this]

/-- C2 amended: the neighbor discovery of `resizeByDelta`.  When `delta < 0`
the prev pane is the first index at or below `splitterOrder - 1`, scanning
backward, that is not skipped — and the skip condition is: the child is a
Splitter, or its collapsed attribute is currently set (the code never tests
"at-min" or `collapsible` here); the scan yields none exactly when every
index down to 0 is skipped.  When `delta ≥ 0` the prev pane is the immediate
neighbor with no scan.  Symmetrically, when `delta > 0` the next pane is the
first non-skipped index at or above `splitterOrder + 1` below the child
count, and when `delta ≤ 0` it is the immediate neighbor. -/
theorem c2_scan_characterization (s : RState) (so' : ℕ) (δ : JsNum)
    (hlen : so' < s.children.length) :
    (JsNum.lt δ (.fin 0) = true →
       (∀ j, resolvePrev s (so' + 1) δ = .ok (some j) ↔
          j ≤ so' ∧ codeSkips s j = false ∧ ∀ k, j < k → k ≤ so' → codeSkips s k = true) ∧
       (resolvePrev s (so' + 1) δ = .ok none ↔ ∀ k, k ≤ so' → codeSkips s k = true)) ∧
    (JsNum.lt δ (.fin 0) = false → resolvePrev s (so' + 1) δ = .ok (some so')) ∧
    (JsNum.lt (.fin 0) δ = true →
       ∀ j, resolveNext s (so' + 1) δ = some j ↔
          so' + 2 ≤ j ∧ j < s.children.length ∧ codeSkips s j = false ∧
            ∀ k, so' + 2 ≤ k → k < j → codeSkips s k = true) ∧
    (JsNum.lt (.fin 0) δ = false → resolveNext s (so' + 1) δ =
       (if so' + 2 < s.children.length then some (so' + 2) else none)) := by
  refine ⟨fun hneg => ⟨fun j => ?_, ?_⟩, fun hpos => ?_, fun hpos => fun j => ?_, fun hpos => ?_⟩
  · rw [resolvePrev, if_pos hneg]
    exact scanPrev_some_iff s so' hlen j
  · rw [resolvePrev, if_pos hneg]
    exact scanPrev_none_iff s so' hlen
  · rw [resolvePrev, if_neg (by rw [hpos]; exact Bool.false_ne_true)]
    rw [if_pos hlen]
  · rw [resolveNext, if_pos hpos]
    have h := scanNext_some_iff s (s.children.length - (so' + 2)) (so' + 2) rfl j
    constructor
    · intro hh
      obtain ⟨h1, h2, h3, h4⟩ := h.mp hh
      exact ⟨h1, h2, h3, h4⟩
    · rintro ⟨h1, h2, h3, h4⟩
      exact h.mpr ⟨h1, h2, h3, h4⟩
  · rw [resolveNext, if_neg (by rw [hpos]; exact Bool.false_ne_true)]

/-- The skip rule as the claim words it (stated for comparison with the code's
rule): skip a Splitter, a Pane that is at-min and not collapsible, or a Pane
that is at-min, collapsible, and already collapsed — where "at-min" compares
the current size against `minSize` converted to fr. -/
def claimSkips (s : RState) (k : ℕ) : Bool :=
  match s.children[k]? with
  | some (.pane m _ collapsible _) =>
      let atMin := JsNum.le (getChildSizeAsNumber s k) (minSizeAsFrNumber m s.rootSize)
      (atMin && !collapsible) || (atMin && collapsible && getPaneCollapsed s k)
  | some (.splitter _) => true
  | none => true

/-- The backward scan as the claim words it. -/
def claimScanPrev (s : RState) (i : ℕ) : Option ℕ :=
  if claimSkips s i then
    match i with
    | 0 => none
    | i' + 1 => claimScanPrev s i'
  else some i

/-- Five children after mount and re-derivation: three panes at `1/3fr` with
splitters between them; pane 2 has `minSize='0.4fr'` (so it is "at-min":
`1/3 ≤ 0.4`) and is not collapsible, but its collapsed attribute has never
been set.  This is exactly `run` of the mount/re-derivation trace (see
`c2State_reachable`). -/
def c2State : RState :=
  ⟨[Child.pane (.fr (.fin 0)) none false (.fr (.fin 0)),
    Child.splitter (.fin 10),
    Child.pane (.fr (.fin (2 / 5))) none false (.fr (.fin 0)),
    Child.splitter (.fin 10),
    Child.pane (.fr (.fin 0)) none false (.fr (.fin 0))],
   [(0, .fr (.fin (1 / 3))), (1, .px (.fin 10)), (2, .fr (.fin (1 / 3))),
    (3, .px (.fin 10)), (4, .fr (.fin (1 / 3)))],
   [],
   [(1, .fin (33 / 100)), (3, .fin (33 / 100))],
   none, .fin 1000⟩

lemma c2State_reachable :
    run (.fin 1000)
      [.regPane (.fr (.fin 0)) none false (.fr (.fin 0)),
       .regSplitter (.fin 10),
       .regPane (.fr (.fin (2 / 5))) none false (.fr (.fin 0)),
       .regSplitter (.fin 10),
       .regPane (.fr (.fin 0)) none false (.fr (.fin 0)),
       .rederiveEv] = c2State := by
  norm_num [run, initState, step, c2State, rederive, rederiveAux, rederiveStep, paneCountOf,
    List.range, List.range.loop, List.foldl, getPaneCollapsed, setPaneCollapsedFn,
    setChildSizeFn, getA, setA, convertFrToNumber, JsNum.div, JsNum.toFixed2,
    Child.isSplitter, Except.bind, Bind.bind, Pure.pure, Except.pure, Option.getD,
    List.filter]

/-- C2 counterexample: at the reachable state `c2State`, a shrink from the
splitter at order 3 must pick a prev pane.  The claim's rule skips pane 2
(at-min — `1/3 ≤ 0.4` — and not collapsible) and lands on pane 0, but the
code's scan (`src/lib/Root.tsx` lines 154–166) tests only
splitter-or-collapsed-attribute, so it takes pane 2. -/
theorem c2_scan_counterexample :
    resolvePrev c2State 3 (.fin (-(1 / 10))) = .ok (some 2) ∧
    claimScanPrev c2State 2 = some 0 ∧
    claimSkips c2State 2 = true ∧
    codeSkips c2State 2 = false := by
  refine ⟨?_, ?_, ?_, ?_⟩ <;>
    norm_num [c2State, resolvePrev, scanPrev, claimScanPrev, claimSkips, codeSkips,
      getChildSizeAsNumber, minSizeAsFrNumber, convertFrToNumber, convertPxToNumber,
      convertPxToFr, isPx, getPaneCollapsed, getA, JsNum.lt, JsNum.le,
      Child.isSplitter, Option.getD]

/-- C2 witness: the characterization applied at `c2State`, splitter order 3
(`so' = 2`), for a shrinking and a growing delta. -/
theorem c2_scan_characterization_witness :
    resolvePrev c2State 3 (.fin (-(1 / 10))) = .ok (some 2) ∧
    resolvePrev c2State 3 (.fin (1 / 10)) = .ok (some 2) := by
  constructor
  · refine (((c2_scan_characterization c2State 2 (.fin (-(1 / 10)))
      (by norm_num [c2State])).1 (by norm_num [JsNum.lt])).1 2).mpr
      ⟨le_refl 2, ?_, fun k h1 h2 => absurd (lt_of_lt_of_le h1 h2) (lt_irrefl 2)⟩
    norm_num [codeSkips, c2State, getPaneCollapsed, getA, Child.isSplitter]
  · exact (c2_scan_characterization c2State 2 (.fin (1 / 10))
      (by norm_num [c2State])).2.1 (by norm_num [JsNum.lt])

lemma setChildSizeFn_ok (s : RState) (o : ℕ) (v : SizeValue) (c : Child)
    (hc : s.children[o]? = some c) :
    setChildSizeFn s o v = .ok
      { s with sizes := setA o v s.sizes,
               aria := if c.isSplitter = false ∧ o + 1 < s.children.length then
                   setA (o + 1) (JsNum.toFixed2 (convertFrToNumber v)) s.aria
                 else s.aria } := by
  cases c with
  | pane m i col cs =>
      rw [setChildSizeFn, hc]
      dsimp only [Child.isSplitter]
      by_cases h : o + 1 < s.children.length
      · rw [if_pos h, if_pos ⟨rfl, h⟩]
      · rw [if_neg h, if_neg (fun hh => h hh.2)]
  | splitter sz =>
      rw [setChildSizeFn, hc]
      dsimp only [Child.isSplitter]
      rw [if_neg (fun hh => Bool.true_eq_false ▸ hh.1)]

lemma setPaneCollapsedFn_of_lt (s : RState) (o : ℕ) (b : Bool)
    (h : o < s.children.length) :
    setPaneCollapsedFn s o b = { s with collapsed := setA o b s.collapsed } := by
  rw [setPaneCollapsedFn, if_pos h]

lemma setPaneSizesAux_spec (vs : List JsNum) : ∀ (index : ℕ) (s : RState),
    (∀ i, i < vs.length → (index + i) * 2 < s.children.length) →
    ∃ s', setPaneSizesAux s index vs = .ok s' ∧
      s'.children = s.children ∧
      (∀ o, (∀ i, i < vs.length → o ≠ (index + i) * 2) →
        getA o s'.sizes = getA o s.sizes ∧ getPaneCollapsed s' o = getPaneCollapsed s o) ∧
      (∀ i, ∀ hi : i < vs.length,
        getA ((index + i) * 2) s'.sizes = some (.fr (vs.get ⟨i, hi⟩)) ∧
        getPaneCollapsed s' ((index + i) * 2) =
          decide ((s.children[(index + i) * 2]?.bind Child.minSizeProp) =
            some (.fr (vs.get ⟨i, hi⟩)))) := by
  induction vs with
  | nil =>
      intro index s _
      exact ⟨s, rfl, rfl, fun o _ => ⟨rfl, rfl⟩, fun i hi => absurd hi (by simp)⟩
  | cons v rest ih =>
      intro index s hreg
      have h0 : index * 2 < s.children.length := by
        have := hreg 0 (by simp)
        omega
      obtain ⟨c, hc⟩ : ∃ c, s.children[index * 2]? = some c :=
        ⟨s.children[index * 2], List.getElem?_eq_getElem h0⟩
      set s1 : RState :=
        { s with sizes := setA (index * 2) (.fr v) s.sizes,
                 aria := if c.isSplitter = false ∧ index * 2 + 1 < s.children.length then
                     setA (index * 2 + 1) (JsNum.toFixed2 (convertFrToNumber (.fr v))) s.aria
                   else s.aria } with hs1
      have hset : setChildSizeFn s (index * 2) (.fr v) = .ok s1 :=
        setChildSizeFn_ok s (index * 2) (.fr v) c hc
      have hs1children : s1.children = s.children := rfl
      have hs1len : index * 2 < s1.children.length := h0
      set b : Bool :=
        decide ((s1.children[index * 2]?.bind Child.minSizeProp) = some (.fr v)) with hb
      set s2 : RState := { s1 with collapsed := setA (index * 2) b s1.collapsed } with hs2
      have hflag : setPaneCollapsedFn s1 (index * 2) b = s2 :=
        setPaneCollapsedFn_of_lt s1 (index * 2) b hs1len
      have hs2children : s2.children = s.children := rfl
      have hreg' : ∀ i, i < rest.length → ((index + 1) + i) * 2 < s2.children.length := by
        intro i hi
        have := hreg (i + 1) (by simpa using Nat.succ_lt_succ hi)
        have he : (index + (i + 1)) * 2 = ((index + 1) + i) * 2 := by ring
        rw [hs2children]
        omega
      obtain ⟨s', hrun, hch, hother, hwritten⟩ := ih (index + 1) s2 hreg'
      refine ⟨s', ?_, by rw [hch, hs2children], ?_, ?_⟩
      · rw [setPaneSizesAux]
        rw [hset]
        show setPaneSizesAux (setPaneCollapsedFn s1 (index * 2)
          (decide ((s1.children[index * 2]?.bind Child.minSizeProp) = some (.fr v))))
          (index + 1) rest = .ok s'
        rw [← hb, hflag]
        exact hrun
      · intro o ho
        have hne0 : o ≠ index * 2 := by
          have := ho 0 (by simp)
          simpa using this
        have ho' : ∀ i, i < rest.length → o ≠ ((index + 1) + i) * 2 := by
          intro i hi
          have := ho (i + 1) (by simpa using Nat.succ_lt_succ hi)
          have he : (index + (i + 1)) * 2 = ((index + 1) + i) * 2 := by ring
          rw [← he]
          exact this
        obtain ⟨hsz, hfl⟩ := hother o ho'
        constructor
        · rw [hsz]
          show getA o (setA (index * 2) (.fr v) s.sizes) = getA o s.sizes
          exact getA_setA_ne hne0 _ _
        · rw [hfl]
          show (getA o (setA (index * 2) b s1.collapsed)).getD false = getPaneCollapsed s o
          rw [getA_setA_ne hne0]
          rfl
      · intro i hi
        rcases Nat.eq_zero_or_pos i with hi0 | hipos
        · subst hi0
          have hnotail : ∀ j, j < rest.length → (index + 0) * 2 ≠ ((index + 1) + j) * 2 := by
            intro j _
            omega
          obtain ⟨hsz, hfl⟩ := hother ((index + 0) * 2) hnotail
          have he : (index + 0) * 2 = index * 2 := by ring
          constructor
          · rw [hsz, he, getA_setA_self]
            rfl
          · rw [hfl]
            show (getA ((index + 0) * 2) (setA (index * 2) b s1.collapsed)).getD false =
              decide ((s.children[(index + 0) * 2]?.bind Child.minSizeProp) =
                some (.fr ((v :: rest).get ⟨0, hi⟩)))
            rw [he, getA_setA_self]
            rw [hb]
            rfl
        · obtain ⟨j, hj⟩ : ∃ j, i = j + 1 := ⟨i - 1, by omega⟩
          subst hj
          have hj' : j < rest.length := by simpa using hi
          obtain ⟨hsz, hfl⟩ := hwritten j hj'
          have he : ((index + 1) + j) * 2 = (index + (j + 1)) * 2 := by ring
          constructor
          · rw [← he, hsz]
            rfl
          · rw [← he, hfl]
            have hcc : s2.children[((index + 1) + j) * 2]? =
                s.children[(index + (j + 1)) * 2]? := by
              rw [hs2children, he]
            rw [hcc]
            rfl

/-- C10: `setPaneSizes(paneSizes)` (`src/lib/Root.tsx` lines 381–387) writes
size `sᵢ` to the child at order `2i` only, marks that child collapsed exactly
when its registered `minSize` compares string-equal to `sᵢ`, leaves every
other order's size and collapsed flag unchanged, and invokes no
resize-notification hook — it addresses panes by the fixed stride 2, i.e.
correctly only in layouts alternating pane/splitter from a pane at order 0. -/
theorem c10_setPaneSizes_frame (s : RState) (vs : List JsNum)
    (hreg : ∀ i, i < vs.length → i * 2 < s.children.length) :
    ∃ s', setPaneSizesFn s vs = .ok (s', []) ∧
      s'.children = s.children ∧
      (∀ i, ∀ hi : i < vs.length,
        getA (i * 2) s'.sizes = some (.fr (vs.get ⟨i, hi⟩)) ∧
        getPaneCollapsed s' (i * 2) =
          decide ((s.children[i * 2]?.bind Child.minSizeProp) =
            some (.fr (vs.get ⟨i, hi⟩)))) ∧
      (∀ o, (∀ i, i < vs.length → o ≠ i * 2) →
        getA o s'.sizes = getA o s.sizes ∧ getPaneCollapsed s' o = getPaneCollapsed s o) := by
  obtain ⟨s', hrun, hch, hother, hwritten⟩ :=
    setPaneSizesAux_spec vs 0 s (fun i hi => by simpa using hreg i hi)
  refine ⟨s', ?_, hch, ?_, ?_⟩
  · rw [setPaneSizesFn, hrun]
    rfl
  · intro i hi
    have h := hwritten i hi
    simpa using h
  · intro o ho
    exact hother o (fun i hi => by simpa using ho i hi)

/-- Pane / splitter / pane with `minSize='0fr'` each, sizes `0.5fr`. -/
def c10State : RState :=
  ⟨[Child.pane (.fr (.fin 0)) none false (.fr (.fin 0)),
    Child.splitter (.fin 10),
    Child.pane (.fr (.fin 0)) none false (.fr (.fin 0))],
   [(0, .fr (.fin (1 / 2))), (1, .px (.fin 10)), (2, .fr (.fin (1 / 2)))],
   [], [], none, .fin 1000⟩

/-- C10 witness: the frame theorem applied to `c10State` with sizes
`['0fr', '0.75fr']`: pane 0 is written `0fr` and marked collapsed (its
`minSize` is the equal string `'0fr'`), pane 2 is written `0.75fr` and not
marked, the splitter at order 1 keeps its size and flag. -/
theorem c10_setPaneSizes_frame_witness :
    ∃ s', setPaneSizesFn c10State [JsNum.fin 0, JsNum.fin (3 / 4)] = .ok (s', []) ∧
      getA 0 s'.sizes = some (.fr (.fin 0)) ∧
      getPaneCollapsed s' 0 = true ∧
      getA 2 s'.sizes = some (.fr (.fin (3 / 4))) ∧
      getPaneCollapsed s' 2 = false ∧
      getA 1 s'.sizes = some (.px (.fin 10)) ∧
      getPaneCollapsed s' 1 = false := by
  obtain ⟨s', hrun, hch, hwritten, hother⟩ :=
    c10_setPaneSizes_frame c10State [JsNum.fin 0, JsNum.fin (3 / 4)]
      (by
        intro i hi
        norm_num [c10State] at hi ⊢
        omega)
  have h0 := hwritten 0 (by norm_num)
  have h1 := hwritten 1 (by norm_num)
  have hsp := hother 1 (by
    intro i hi
    norm_num at hi
    omega)
  refine ⟨s', hrun, ?_, ?_, ?_, ?_, ?_, ?_⟩
  · simpa using h0.1
  · have := h0.2
    rw [this]
    norm_num [c10State, Child.minSizeProp]
  · simpa using h1.1
  · have := h1.2
    rw [this]
    norm_num [c10State, Child.minSizeProp]
  · rw [hsp.1]
    norm_num [c10State, getA]
  · rw [hsp.2]
    norm_num [c10State, getPaneCollapsed, getA]

/-- C6 amended: calling `setPaneSizes` with the panes' current sizes leaves
every stored size observationally unchanged and invokes no
resize-notification hook, but it does not leave the collapsed flags alone: the
flag of each addressed child is rewritten to the string comparison
`minSize === size`, which changes the flag whenever it previously disagreed
with that comparison. -/
theorem c6_setPaneSizes_amended (s : RState) (vs : List JsNum)
    (hreg : ∀ i, i < vs.length → i * 2 < s.children.length)
    (hcur : ∀ i, ∀ hi : i < vs.length, getA (i * 2) s.sizes = some (.fr (vs.get ⟨i, hi⟩))) :
    ∃ s', setPaneSizesFn s vs = .ok (s', []) ∧
      (∀ o, getA o s'.sizes = getA o s.sizes) ∧
      (∀ i, ∀ hi : i < vs.length,
        getPaneCollapsed s' (i * 2) =
          decide ((s.children[i * 2]?.bind Child.minSizeProp) =
            some (.fr (vs.get ⟨i, hi⟩)))) ∧
      (∀ o, (∀ i, i < vs.length → o ≠ i * 2) →
        getPaneCollapsed s' o = getPaneCollapsed s o) := by
  obtain ⟨s', hrun, hch, hother, hwritten⟩ :=
    setPaneSizesAux_spec vs 0 s (fun i hi => by simpa using hreg i hi)
  refine ⟨s', ?_, ?_, ?_, ?_⟩
  · rw [setPaneSizesFn, hrun]
    rfl
  · intro o
    by_cases ho : ∃ i, ∃ hi : i < vs.length, o = i * 2
    · obtain ⟨i, hi, rfl⟩ := ho
      have h := (hwritten i hi).1
      have hc := hcur i hi
      simp only [Nat.zero_add] at h
      rw [h, hc]
    · push_neg at ho
      exact (hother o (fun i hi => by simpa using ho i hi)).1
  · intro i hi
    have h := (hwritten i hi).2
    simpa using h
  · intro o ho
    exact (hother o (fun i hi => by simpa using ho i hi)).2

/-- The mount trace for the C6 counterexample: pane 0 with
`minSize='0.5fr'` and `initialSize='0.5fr'`, a splitter, pane 2 with
`minSize='0fr'` and `initialSize='0.5fr'`, then the re-derivation pass. -/
def c6Trace : List Ev :=
  [.regPane (.fr (.fin (1 / 2))) (some (.fin (1 / 2))) false (.fr (.fin 0)),
   .regSplitter (.fin 10),
   .regPane (.fr (.fin 0)) (some (.fin (1 / 2))) false (.fr (.fin 0)),
   .rederiveEv]

/-- C6 counterexample: in the reachable state after `c6Trace`, pane 0's size
is `'0.5fr'` — equal to its `minSize` string — and its collapsed flag is
`false`; calling `setPaneSizes` with the current sizes `['0.5fr', '0.5fr']`
flips that flag to `true`: an observable change, refuting idempotence. -/
theorem c6_idempotence_counterexample :
    getA 0 (run (.fin 1000) c6Trace).sizes = some (.fr (.fin (1 / 2))) ∧
    getA 2 (run (.fin 1000) c6Trace).sizes = some (.fr (.fin (1 / 2))) ∧
    getPaneCollapsed (run (.fin 1000) c6Trace) 0 = false ∧
    ∃ s', setPaneSizesFn (run (.fin 1000) c6Trace) [.fin (1 / 2), .fin (1 / 2)] =
        .ok (s', []) ∧
      getPaneCollapsed s' 0 = true := by
  have hrun : run (.fin 1000) c6Trace =
      ⟨[Child.pane (.fr (.fin (1 / 2))) (some (.fin (1 / 2))) false (.fr (.fin 0)),
        Child.splitter (.fin 10),
        Child.pane (.fr (.fin 0)) (some (.fin (1 / 2))) false (.fr (.fin 0))],
       [(0, .fr (.fin (1 / 2))), (1, .px (.fin 10)), (2, .fr (.fin (1 / 2)))],
       [], [(1, .fin (1 / 2))], none, .fin 1000⟩ := by
    norm_num [run, c6Trace, initState, step, rederive, rederiveAux, rederiveStep, paneCountOf,
      List.range, List.range.loop, List.foldl, getPaneCollapsed, setPaneCollapsedFn,
      setChildSizeFn, getA, setA, convertFrToNumber, JsNum.div, JsNum.toFixed2,
      Child.isSplitter, Except.bind, Bind.bind, Pure.pure, Except.pure, Option.getD,
      List.filter]
  rw [hrun]
  refine ⟨by norm_num [getA], by norm_num [getA], by norm_num [getPaneCollapsed, getA], ?_⟩
  refine ⟨⟨[Child.pane (.fr (.fin (1 / 2))) (some (.fin (1 / 2))) false (.fr (.fin 0)),
        Child.splitter (.fin 10),
        Child.pane (.fr (.fin 0)) (some (.fin (1 / 2))) false (.fr (.fin 0))],
       [(0, .fr (.fin (1 / 2))), (1, .px (.fin 10)), (2, .fr (.fin (1 / 2)))],
       [(0, true), (2, false)], [(1, .fin (1 / 2))], none, .fin 1000⟩, ?_, ?_⟩
  · norm_num [setPaneSizesFn, setPaneSizesAux, setChildSizeFn, setPaneCollapsedFn,
      getA, setA, Child.minSizeProp, convertFrToNumber, JsNum.toFixed2,
      Except.bind, Except.map, Bind.bind, Pure.pure, Except.pure, Option.bind]
  · norm_num [getPaneCollapsed, getA]

/-- C6 witness: the amended statement applied to `c10State` with its current
sizes `['0.5fr', '0.5fr']`: sizes unchanged, hooks silent, and the flags end
up equal to the `minSize === size` comparison (`false` here). -/
theorem c6_setPaneSizes_amended_witness :
    ∃ s', setPaneSizesFn c10State [JsNum.fin (1 / 2), JsNum.fin (1 / 2)] = .ok (s', []) ∧
      getA 0 s'.sizes = getA 0 c10State.sizes ∧
      getPaneCollapsed s' 0 = false := by
  obtain ⟨s', hrun, hsz, hfl, hother⟩ :=
    c6_setPaneSizes_amended c10State [JsNum.fin (1 / 2), JsNum.fin (1 / 2)]
      (by
        intro i hi
        norm_num [c10State] at hi ⊢
        omega)
      (by
        intro i hi
        norm_num at hi
        interval_cases i <;> norm_num [c10State, getA])
  refine ⟨s', hrun, hsz 0, ?_⟩
  have h := hfl 0 (by norm_num)
  simp only [Nat.zero_mul] at h
  rw [h]
  norm_num [c10State, Child.minSizeProp]

/-- The size the re-derivation pass computes for one order (the body of
`rederiveStep` as a value): splitters get their fixed px size, a pane whose
collapsed attribute is set gets `'0fr'`, any other pane gets `initialSize`
or the equal share `1 / paneCount`. -/
def rederivedSize (paneCount : ℕ) (s : RState) (o : ℕ) : SizeValue :=
  match s.children[o]? with
  | some (.pane _ initialSize _ _) =>
      if getPaneCollapsed s o then .fr (.fin 0)
      else .fr (initialSize.getD (JsNum.div (.fin 1) (.fin (paneCount : ℚ))))
  | some (.splitter v) => .px v
  | none => .fr (.fin 0)

lemma rederiveStep_eq (pc : ℕ) (s : RState) (o : ℕ) (c : Child)
    (hc : s.children[o]? = some c) :
    rederiveStep pc s o = setChildSizeFn s o (rederivedSize pc s o) := by
  cases c with
  | pane m i col cs =>
      rw [rederiveStep, hc, rederivedSize, hc]
  | splitter v =>
      rw [rederiveStep, hc, rederivedSize, hc]

lemma rederivedSize_congr (pc : ℕ) (s t : RState) (o : ℕ)
    (hch : t.children = s.children) (hcol : t.collapsed = s.collapsed) :
    rederivedSize pc t o = rederivedSize pc s o := by
  rw [rederivedSize, rederivedSize, hch]
  have : getPaneCollapsed t o = getPaneCollapsed s o := by
    rw [getPaneCollapsed, getPaneCollapsed, hcol]
  rw [this]

lemma rederiveAux_spec (pc : ℕ) (L : List ℕ) : ∀ s : RState,
    (∀ o, o ∈ L → o < s.children.length) →
    ∃ s', rederiveAux pc s L = .ok s' ∧
      s'.children = s.children ∧ s'.collapsed = s.collapsed ∧
      (∀ o, o ∉ L → getA o s'.sizes = getA o s.sizes) ∧
      (∀ o, o ∈ L → getA o s'.sizes = some (rederivedSize pc s o)) := by
  induction L with
  | nil =>
      intro s _
      exact ⟨s, rfl, rfl, rfl, fun o _ => rfl, fun o ho => absurd ho (by simp)⟩
  | cons o₀ rest ih =>
      intro s hL
      have h0 : o₀ < s.children.length := hL o₀ (by simp)
      obtain ⟨c, hc⟩ : ∃ c, s.children[o₀]? = some c :=
        ⟨s.children[o₀], List.getElem?_eq_getElem h0⟩
      set val : SizeValue := rederivedSize pc s o₀ with hval
      set s1 : RState :=
        { s with sizes := setA o₀ val s.sizes,
                 aria := if c.isSplitter = false ∧ o₀ + 1 < s.children.length then
                     setA (o₀ + 1) (JsNum.toFixed2 (convertFrToNumber val)) s.aria
                   else s.aria } with hs1
      have hstep : rederiveStep pc s o₀ = .ok s1 := by
        rw [rederiveStep_eq pc s o₀ c hc, ← hval]
        exact setChildSizeFn_ok s o₀ val c hc
      have hs1ch : s1.children = s.children := rfl
      have hs1col : s1.collapsed = s.collapsed := rfl
      obtain ⟨s', hrun, hch, hcol, hother, hwritten⟩ :=
        ih s1 (fun o ho => by rw [hs1ch]; exact hL o (by simp [ho]))
      have hcongr : ∀ o, rederivedSize pc s1 o = rederivedSize pc s o :=
        fun o => rederivedSize_congr pc s s1 o hs1ch hs1col
      refine ⟨s', ?_, by rw [hch], by rw [hcol], ?_, ?_⟩
      · rw [rederiveAux, hstep]
        exact hrun
      · intro o ho
        have hno : o ∉ rest := fun h => ho (by simp [h])
        have hne : o ≠ o₀ := fun h => ho (by simp [h])
        rw [hother o hno]
        show getA o (setA o₀ val s.sizes) = getA o s.sizes
        exact getA_setA_ne hne _ _
      · intro o ho
        by_cases hor : o ∈ rest
        · rw [hwritten o hor, hcongr]
        · have ho0 : o = o₀ := by
            rcases List.mem_cons.mp ho with h | h
            · exact h
            · exact absurd h hor
          subst ho0
          rw [hother o hor]
          show getA o (setA o val s.sizes) = some (rederivedSize pc s o)
          rw [getA_setA_self, hval]

/-- C9: the re-derivation pass run on any change of the registered set
(`src/lib/Root.tsx` lines 392–411) resets every splitter's size to its fixed
px size and every pane's size to its `initialSize` or, absent that, to
`1 / paneCount` fr (`paneCount` = number of registered panes), except that a
pane whose collapsed attribute is set is reset to `'0fr'`; collapsed flags and
the registry itself are untouched. -/
theorem c9_rederive_spec (s : RState) :
    ∃ s', rederive s = .ok s' ∧
      s'.children = s.children ∧ s'.collapsed = s.collapsed ∧
      (∀ o v, s.children[o]? = some (.splitter v) → getA o s'.sizes = some (.px v)) ∧
      (∀ o m init col cs, s.children[o]? = some (.pane m init col cs) →
        getA o s'.sizes = some (if getPaneCollapsed s o then SizeValue.fr (.fin 0)
          else .fr (init.getD (JsNum.div (.fin 1) (.fin (paneCountOf s : ℚ)))))) := by
  obtain ⟨s', hrun, hch, hcol, hother, hwritten⟩ :=
    rederiveAux_spec (paneCountOf s) (List.range s.children.length) s
      (fun o ho => List.mem_range.mp ho)
  have hlt : ∀ o (c : Child), s.children[o]? = some c → o < s.children.length := by
    intro o c hc
    by_contra h
    rw [List.getElem?_eq_none (le_of_not_lt h)] at hc
    exact absurd hc (by simp)
  refine ⟨s', hrun, hch, hcol, ?_, ?_⟩
  · intro o v hc
    have := hwritten o (List.mem_range.mpr (hlt o _ hc))
    rw [this, rederivedSize, hc]
  · intro o m init col cs hc
    have := hwritten o (List.mem_range.mpr (hlt o _ hc))
    rw [this, rederivedSize, hc]

/-- Mid-session registration state for Scenario C: three panes with no
`initialSize` and two splitters registered, before the re-derivation pass. -/
def c9State : RState :=
  ⟨[Child.pane (.fr (.fin 0)) none false (.fr (.fin 0)),
    Child.splitter (.fin 10),
    Child.pane (.fr (.fin 0)) none false (.fr (.fin 0)),
    Child.splitter (.fin 10),
    Child.pane (.fr (.fin 0)) none false (.fr (.fin 0))],
   [], [], [], none, .fin 1000⟩

/-- C9 witness: re-derivation over three panes with no `initialSize` sets each
pane to `1/3 fr` and each splitter to its fixed `10px`. -/
theorem c9_rederive_spec_witness :
    ∃ s', rederive c9State = .ok s' ∧
      getA 0 s'.sizes = some (.fr (.fin (1 / 3))) ∧
      getA 2 s'.sizes = some (.fr (.fin (1 / 3))) ∧
      getA 4 s'.sizes = some (.fr (.fin (1 / 3))) ∧
      getA 1 s'.sizes = some (.px (.fin 10)) := by
  obtain ⟨s', hrun, hch, hcol, hsp, hpane⟩ := c9_rederive_spec c9State
  have hpc : (paneCountOf c9State : ℚ) = 3 := by
    norm_num [paneCountOf, c9State, Child.isSplitter, List.filter]
  have hthird : ∀ o, c9State.children[o]? =
      some (.pane (.fr (.fin 0)) none false (.fr (.fin 0))) →
      getA o s'.sizes = some (.fr (.fin (1 / 3))) := by
    intro o hc
    have h := hpane o _ _ _ _ hc
    rw [h]
    have hflag : getPaneCollapsed c9State o = false := by
      norm_num [getPaneCollapsed, c9State, getA]
    rw [hflag]
    norm_num [hpc, Option.getD, JsNum.div]
  refine ⟨s', hrun, ?_, ?_, ?_, ?_⟩
  · exact hthird 0 (by norm_num [c9State])
  · exact hthird 2 (by norm_num [c9State])
  · exact hthird 4 (by norm_num [c9State])
  · exact hsp 1 (.fin 10) (by norm_num [c9State])

@[simp] lemma JsNum.nan_ne_fin (q : ℚ) : JsNum.nan ≠ JsNum.fin q :=
  fun h => JsNum.noConfusion h

@[simp] lemma JsNum.posInf_ne_fin (q : ℚ) : JsNum.posInf ≠ JsNum.fin q :=
  fun h => JsNum.noConfusion h

@[simp] lemma JsNum.negInf_ne_fin (q : ℚ) : JsNum.negInf ≠ JsNum.fin q :=
  fun h => JsNum.noConfusion h

/-- Conservation of the clamp-and-transfer arithmetic: whenever both tentative
sizes are finite and both final sizes come out finite, their sum is unchanged
(each clamp moves exactly the clamped remainder to the other side). -/
lemma clampPair_conservation (pmin nmin : JsNum) (p n p' n' : ℚ)
    (h : clampPair (.fin p) (.fin n) pmin nmin = (.fin p', .fin n')) :
    p' + n' = p + n := by
  cases pmin <;> cases nmin <;>
    simp only [clampPair, JsNum.le, JsNum.add, JsNum.sub, JsNum.neg,
      if_true, if_false, Bool.false_eq_true, Bool.true_eq_false] at h <;>
    (try split_ifs at h) <;>
    simp only [Prod.mk.injEq, JsNum.fin.injEq, JsNum.nan_ne_fin, JsNum.posInf_ne_fin,
      JsNum.negInf_ne_fin, false_and, and_false] at h <;>
    (try obtain ⟨h1, h2⟩ := h) <;>
    (try subst h1) <;> (try subst h2) <;> ring

lemma setPaneCollapsedFn_children (s : RState) (o : ℕ) (b : Bool) :
    (setPaneCollapsedFn s o b).children = s.children := by
  rw [setPaneCollapsedFn]
  split_ifs <;> rfl

lemma setChildSizeFn_ne_error (s : RState) (o : ℕ) (v : SizeValue) (c : Child)
    (hc : s.children[o]? = some c) (e : JsErr) :
    setChildSizeFn s o v ≠ .error e := by
  rw [setChildSizeFn_ok s o v c hc]
  simp

/-- C3: conservation.  For every resolver call that resolves both a prev and a
next pane (equivalently: that returns the two `onResize` notifications) with a
finite delta, finite current sizes and finite final sizes, the sum of the two
resolved panes' sizes after the call equals their sum before it, in every
clamping branch. -/
theorem c3_conservation (s : RState) (so : ℕ) (d : ℚ) (s' : RState)
    (pi ni : ℕ) (p n p' n' : ℚ)
    (hok : resizeByDelta s so (.fin d) = .ok (s', [(pi, .fin p'), (ni, .fin n')]))
    (hp : getChildSizeAsNumber s pi = .fin p)
    (hn : getChildSizeAsNumber s ni = .fin n) :
    p' + n' = p + n := by
  simp only [resizeByDelta] at hok
  cases hprev : resolvePrev s so (.fin d) with
  | error e =>
      rw [hprev] at hok
      exact absurd hok (by simp [Bind.bind, Except.bind])
  | ok prevOpt =>
      rw [hprev] at hok
      simp only [Bind.bind, Except.bind] at hok
      cases prevOpt with
      | none =>
          exact absurd hok (by simp)
      | some pi' =>
          cases hnext : resolveNext s so (.fin d) with
          | none =>
              rw [hnext] at hok
              exact absurd hok (by simp)
          | some ni' =>
              rw [hnext] at hok
              dsimp only at hok
              cases hcp : s.children[pi']? with
              | none =>
                  rw [hcp] at hok
                  exact absurd hok (by simp [Option.bind])
              | some cp =>
                  cases hcn : s.children[ni']? with
                  | none =>
                      rw [hcp, hcn] at hok
                      cases cp <;>
                        exact absurd hok (by simp [Option.bind, Child.minSizeProp])
                  | some cn =>
                      rw [hcp, hcn] at hok
                      cases cp with
                      | splitter v =>
                          exact absurd hok (by simp [Option.bind, Child.minSizeProp])
                      | pane pm pinit pcol pcs =>
                          cases cn with
                          | splitter v =>
                              exact absurd hok
                                (by simp [Option.bind, Child.minSizeProp])
                          | pane nm ninit ncol ncs =>
                              simp only [Option.bind, Child.minSizeProp] at hok
                              cases hw1 : setChildSizeFn s pi'
                                  (.fr (clampPair
                                    (JsNum.add (getChildSizeAsNumber s pi') (.fin d))
                                    (JsNum.sub (getChildSizeAsNumber s ni') (.fin d))
                                    (minSizeAsFrNumber pm s.rootSize)
                                    (minSizeAsFrNumber nm s.rootSize)).1) with
                              | error e =>
                                  exact absurd hw1
                                    (setChildSizeFn_ne_error s pi' _ _ hcp e)
                              | ok t1 =>
                                  rw [hw1] at hok
                                  dsimp only at hok
                                  have ht1 : t1.children = s.children := by
                                    have h := setChildSizeFn_ok s pi'
                                      (.fr (clampPair
                                        (JsNum.add (getChildSizeAsNumber s pi') (.fin d))
                                        (JsNum.sub (getChildSizeAsNumber s ni') (.fin d))
                                        (minSizeAsFrNumber pm s.rootSize)
                                        (minSizeAsFrNumber nm s.rootSize)).1) _ hcp
                                    rw [hw1] at h
                                    have h2 := Except.ok.inj h
                                    subst h2
                                    rfl
                                  cases hw2 : setChildSizeFn
                                      (setPaneCollapsedFn t1 pi'
                                        (JsNum.le
                                          (JsNum.add (getChildSizeAsNumber s pi') (.fin d))
                                          (minSizeAsFrNumber pm s.rootSize)))
                                      ni'
                                      (.fr (clampPair
                                        (JsNum.add (getChildSizeAsNumber s pi') (.fin d))
                                        (JsNum.sub (getChildSizeAsNumber s ni') (.fin d))
                                        (minSizeAsFrNumber pm s.rootSize)
                                        (minSizeAsFrNumber nm s.rootSize)).2) with
                                  | error e =>
                                      refine absurd hw2
                                        (setChildSizeFn_ne_error _ ni' _
                                          (.pane nm ninit ncol ncs) ?_ e)
                                      rw [setPaneCollapsedFn_children, ht1]
                                      exact hcn
                                  | ok t2 =>
                                      rw [hw2] at hok
                                      dsimp only at hok
                                      simp only [Except.ok.injEq, Prod.mk.injEq,
                                        List.cons.injEq, and_true] at hok
                                      obtain ⟨-, ⟨hpi, hp1⟩, ⟨hni, hn1⟩⟩ := hok
                                      subst hpi
                                      subst hni
                                      rw [hp, hn] at hp1 hn1
                                      have hpair :
                                          clampPair (.fin (p + d)) (.fin (n + -d))
                                            (minSizeAsFrNumber pm s.rootSize)
                                            (minSizeAsFrNumber nm s.rootSize) =
                                            (.fin p', .fin n') := by
                                        have ha : JsNum.add (.fin p) (.fin d) =
                                            JsNum.fin (p + d) := rfl
                                        have hs2 : JsNum.sub (.fin n) (.fin d) =
                                            JsNum.fin (n + -d) := rfl
                                        rw [ha, hs2] at hp1 hn1
                                        exact Prod.ext hp1 hn1
                                      have := clampPair_conservation _ _ _ _ _ _ hpair
                                      linarith

/-- C3 witness: conservation at a concrete call that clamps the prev side —
`0.3 + 0.7 = 0.2 + 0.8` around `resolve(1, -0.25)` on `c1State`. -/
theorem c3_conservation_witness :
    resizeByDelta c1State 1 (.fin (-(1 / 4))) =
      .ok (c1After, [(0, .fin (1 / 5)), (2, .fin (4 / 5))]) ∧
    (1 / 5 : ℚ) + 4 / 5 = 3 / 10 + 7 / 10 := by
  have hok : resizeByDelta c1State 1 (.fin (-(1 / 4))) =
      .ok (c1After, [(0, .fin (1 / 5)), (2, .fin (4 / 5))]) := by
    norm_num [c1State, c1After, resizeByDelta, resolvePrev, scanPrev, resolveNext, scanNext,
      minSizeAsFrNumber, convertFrToNumber, convertPxToNumber, convertPxToFr, isPx,
      getChildSizeAsNumber, getPaneCollapsed, setPaneCollapsedFn, setChildSizeFn,
      clampPair, getA, setA, JsNum.lt, JsNum.le, JsNum.add, JsNum.sub, JsNum.neg,
      JsNum.div, JsNum.toFixed2, Child.isSplitter, Child.minSizeProp, Except.bind,
      Bind.bind, Pure.pure, Except.pure, Option.bind, Option.getD]
  refine ⟨hok, ?_⟩
  exact c3_conservation c1State 1 (-(1 / 4)) c1After 0 2 (3 / 10) (7 / 10) (1 / 5) (4 / 5)
    hok
    (by norm_num [getChildSizeAsNumber, c1State, getA, isPx, convertFrToNumber])
    (by norm_num [getChildSizeAsNumber, c1State, getA, isPx, convertFrToNumber])

lemma setPaneCollapsedFn_aria (s : RState) (o : ℕ) (b : Bool) :
    (setPaneCollapsedFn s o b).aria = s.aria := by
  rw [setPaneCollapsedFn]
  split_ifs <;> rfl

lemma scanPrev_ok_le (s : RState) : ∀ i j, scanPrev s i = .ok (some j) → j ≤ i := by
  intro i
  induction i with
  | zero =>
      intro j h
      rw [scanPrev] at h
      cases hc : s.children[0]? with
      | none =>
          rw [hc] at h
          exact absurd h (by simp)
      | some c =>
          rw [hc] at h
          dsimp only at h
          by_cases hskip : (c.isSplitter || getPaneCollapsed s 0) = true
          · rw [if_pos hskip] at h
            exact absurd h (by simp)
          · rw [if_neg hskip] at h
            have : 0 = j := by simpa using h
            omega
  | succ i ih =>
      intro j h
      rw [scanPrev] at h
      cases hc : s.children[i + 1]? with
      | none =>
          rw [hc] at h
          exact absurd h (by simp)
      | some c =>
          rw [hc] at h
          dsimp only at h
          by_cases hskip : (c.isSplitter || getPaneCollapsed s (i + 1)) = true
          · rw [if_pos hskip] at h
            have := ih j h
            omega
          · rw [if_neg hskip] at h
            have : i + 1 = j := by simpa using h
            omega

lemma resolvePrev_lt (s : RState) (so : ℕ) (δ : JsNum) (pi : ℕ)
    (h : resolvePrev s so δ = .ok (some pi)) : pi < so := by
  rw [resolvePrev.eq_def] at h
  cases so with
  | zero =>
      dsimp only at h
      split_ifs at h <;> simp at h
  | succ so' =>
      dsimp only at h
      split_ifs at h with hneg hlen
      · exact Nat.lt_succ_of_le (scanPrev_ok_le s so' pi h)
      · have : so' = pi := by simpa using h
        omega
      · exact absurd h (by simp)

lemma resolveNext_gt (s : RState) (so : ℕ) (δ : JsNum) (ni : ℕ)
    (h : resolveNext s so δ = some ni) : so < ni := by
  rw [resolveNext] at h
  split_ifs at h with hpos hlen
  · have := (scanNext_some_iff s (s.children.length - (so + 1)) (so + 1) rfl ni).mp h
    omega
  · have : so + 1 = ni := by simpa using h
    omega

/-- C8 amended: after every resolver call, for each pane whose size was
written (the `onResize` notification list), the element at the next order —
the splitter that `aria-controls` that pane, when the layout alternates —
carries `aria-valuenow` equal to the written fr size rounded to 2 decimals;
and the exposed value lies in `[0, 1]` whenever the written size does.  The
sizes themselves are not clamped to `[0, 1]` (see the counterexample). -/
theorem c8_aria_sync_amended (s : RState) (so : ℕ) (δ : JsNum) (s' : RState)
    (notifs : List (ℕ × JsNum))
    (hok : resizeByDelta s so δ = .ok (s', notifs)) :
    (∀ o v, (o, v) ∈ notifs → o + 1 < s.children.length →
      getA (o + 1) s'.aria = some (JsNum.toFixed2 v)) ∧
    (∀ q : ℚ, 0 ≤ q → q ≤ 1 →
      ∃ r : ℚ, JsNum.toFixed2 (.fin q) = .fin r ∧ 0 ≤ r ∧ r ≤ 1) := by
  constructor
  · simp only [resizeByDelta] at hok
    cases hprev : resolvePrev s so δ with
    | error e =>
        rw [hprev] at hok
        exact absurd hok (by simp [Bind.bind, Except.bind])
    | ok prevOpt =>
        rw [hprev] at hok
        simp only [Bind.bind, Except.bind] at hok
        cases prevOpt with
        | none =>
            simp only [Except.ok.injEq, Prod.mk.injEq] at hok
            obtain ⟨-, hnot⟩ := hok
            intro o v hmem
            rw [← hnot] at hmem
            exact absurd hmem (by simp)
        | some pi' =>
            cases hnext : resolveNext s so δ with
            | none =>
                rw [hnext] at hok
                simp only [Except.ok.injEq, Prod.mk.injEq] at hok
                obtain ⟨-, hnot⟩ := hok
                intro o v hmem
                rw [← hnot] at hmem
                exact absurd hmem (by simp)
            | some ni' =>
                rw [hnext] at hok
                dsimp only at hok
                have hpiso : pi' < so := resolvePrev_lt s so δ pi' hprev
                have hniso : so < ni' := resolveNext_gt s so δ ni' hnext
                cases hcp : s.children[pi']? with
                | none =>
                    rw [hcp] at hok
                    exact absurd hok (by simp [Option.bind])
                | some cp =>
                    cases hcn : s.children[ni']? with
                    | none =>
                        rw [hcp, hcn] at hok
                        cases cp <;>
                          exact absurd hok (by simp [Option.bind, Child.minSizeProp])
                    | some cn =>
                        rw [hcp, hcn] at hok
                        cases cp with
                        | splitter v =>
                            exact absurd hok (by simp [Option.bind, Child.minSizeProp])
                        | pane pm pinit pcol pcs =>
                            cases cn with
                            | splitter v =>
                                exact absurd hok
                                  (by simp [Option.bind, Child.minSizeProp])
                            | pane nm ninit ncol ncs =>
                                simp only [Option.bind, Child.minSizeProp] at hok
                                set P : JsNum × JsNum := clampPair
                                  (JsNum.add (getChildSizeAsNumber s pi') δ)
                                  (JsNum.sub (getChildSizeAsNumber s ni') δ)
                                  (minSizeAsFrNumber pm s.rootSize)
                                  (minSizeAsFrNumber nm s.rootSize) with hP
                                cases hw1 : setChildSizeFn s pi' (.fr P.1) with
                                | error e =>
                                    exact absurd hw1
                                      (setChildSizeFn_ne_error s pi' _ _ hcp e)
                                | ok t1 =>
                                    rw [hw1] at hok
                                    dsimp only at hok
                                    have ht1 := setChildSizeFn_ok s pi' (.fr P.1) _ hcp
                                    rw [hw1] at ht1
                                    have ht1e := Except.ok.inj ht1
                                    set s2 : RState := setPaneCollapsedFn t1 pi'
                                      (JsNum.le (JsNum.add (getChildSizeAsNumber s pi') δ)
                                        (minSizeAsFrNumber pm s.rootSize)) with hs2
                                    have hs2ch : s2.children = s.children := by
                                      rw [hs2, setPaneCollapsedFn_children, ht1e]
                                    have hs2aria : s2.aria = t1.aria := by
                                      rw [hs2, setPaneCollapsedFn_aria]
                                    have hcn2 : s2.children[ni']? =
                                        some (Child.pane nm ninit ncol ncs) := by
                                      rw [hs2ch]
                                      exact hcn
                                    cases hw2 : setChildSizeFn s2 ni' (.fr P.2) with
                                    | error e =>
                                        exact absurd hw2
                                          (setChildSizeFn_ne_error s2 ni' _ _ hcn2 e)
                                    | ok t2 =>
                                        rw [hw2] at hok
                                        dsimp only at hok
                                        have ht2 := setChildSizeFn_ok s2 ni' (.fr P.2) _ hcn2
                                        rw [hw2] at ht2
                                        have ht2e := Except.ok.inj ht2
                                        simp only [Except.ok.injEq, Prod.mk.injEq] at hok
                                        obtain ⟨hs', hnot⟩ := hok
                                        intro o v hmem hlen
                                        rw [← hnot] at hmem
                                        have hs'aria : s'.aria = t2.aria := by
                                          rw [← hs', setPaneCollapsedFn_aria]
                                        have ht2aria : t2.aria =
                                            if (Child.pane nm ninit ncol ncs).isSplitter =
                                                false ∧ ni' + 1 < s2.children.length then
                                              setA (ni' + 1)
                                                (JsNum.toFixed2 (convertFrToNumber (.fr P.2)))
                                                s2.aria
                                            else s2.aria := by
                                          rw [ht2e]
                                        have ht1aria : t1.aria =
                                            if (Child.pane pm pinit pcol pcs).isSplitter =
                                                false ∧ pi' + 1 < s.children.length then
                                              setA (pi' + 1)
                                                (JsNum.toFixed2 (convertFrToNumber (.fr P.1)))
                                                s.aria
                                            else s.aria := by
                                          rw [ht1e]
                                        rcases List.mem_cons.mp hmem with hv | hv
                                        · -- the prev pane notification
                                            have hov : o = pi' ∧ v = P.1 := by
                                              simpa using hv
                                            obtain ⟨ho, hvv⟩ := hov
                                            rw [ho] at hlen
                                            rw [ho, hvv, hs'aria, ht2aria]
                                            have hne : pi' + 1 ≠ ni' + 1 := by omega
                                            split_ifs with hcond
                                            · rw [getA_setA_ne hne, hs2aria, ht1aria]
                                              rw [if_pos ⟨rfl, hlen⟩, getA_setA_self]
                                              rfl
                                            · rw [hs2aria, ht1aria]
                                              rw [if_pos ⟨rfl, hlen⟩, getA_setA_self]
                                              rfl
                                        · -- the next pane notification
                                            have hov : o = ni' ∧ v = P.2 := by
                                              simpa using hv
                                            obtain ⟨ho, hvv⟩ := hov
                                            rw [ho] at hlen
                                            rw [ho, hvv, hs'aria, ht2aria]
                                            rw [if_pos ⟨rfl, by rw [hs2ch]; exact hlen⟩,
                                              getA_setA_self]
                                            rfl
  · intro q h0 h1
    refine ⟨(⌊q * 100 + 1 / 2⌋ : ℚ) / 100, ?_, ?_, ?_⟩
    · rw [JsNum.toFixed2, if_pos h0]
    · have hfl : (0 : ℤ) ≤ ⌊q * 100 + 1 / 2⌋ := Int.floor_nonneg.mpr (by linarith)
      positivity
    · have hfl : ⌊q * 100 + 1 / 2⌋ ≤ 100 := by
        have hmono : ⌊q * 100 + 1 / 2⌋ ≤ ⌊(100 : ℚ) + 1 / 2⌋ :=
          Int.floor_le_floor (by linarith)
        have : ⌊(100 : ℚ) + 1 / 2⌋ = 100 := by norm_num
        omega
      rw [div_le_one (by norm_num)]
      exact_mod_cast hfl

/-- The state `resolve(1, +0.15)` produces from `c10State`. -/
def c8After : RState :=
  ⟨c10State.children,
   [(0, .fr (.fin (13 / 20))), (1, .px (.fin 10)), (2, .fr (.fin (7 / 20)))],
   [(0, false), (2, false)],
   [(1, .fin (13 / 20))],
   none, .fin 1000⟩

/-- C8 witness: the sync statement applied to `resolve(1, +0.15)` on
`c10State` — the splitter at order 1 exposes `aria-valuenow` `0.65` for the
written pane size `0.65fr`, and the rounded value of a size in `[0,1]` stays
in `[0,1]`. -/
theorem c8_aria_sync_amended_witness :
    resizeByDelta c10State 1 (.fin (3 / 20)) =
      .ok (c8After, [(0, .fin (13 / 20)), (2, .fin (7 / 20))]) ∧
    getA 1 c8After.aria = some (JsNum.toFixed2 (.fin (13 / 20))) ∧
    (∃ r : ℚ, JsNum.toFixed2 (.fin (13 / 20)) = .fin r ∧ 0 ≤ r ∧ r ≤ 1) := by
  have hok : resizeByDelta c10State 1 (.fin (3 / 20)) =
      .ok (c8After, [(0, .fin (13 / 20)), (2, .fin (7 / 20))]) := by
    norm_num [c10State, c8After, resizeByDelta, resolvePrev, scanPrev, resolveNext, scanNext,
      minSizeAsFrNumber, convertFrToNumber, convertPxToNumber, convertPxToFr, isPx,
      getChildSizeAsNumber, getPaneCollapsed, setPaneCollapsedFn, setChildSizeFn,
      clampPair, getA, setA, JsNum.lt, JsNum.le, JsNum.add, JsNum.sub, JsNum.neg,
      JsNum.div, JsNum.toFixed2, Child.isSplitter, Child.minSizeProp, Except.bind,
      Bind.bind, Pure.pure, Except.pure, Option.bind, Option.getD]
  have h := c8_aria_sync_amended c10State 1 (.fin (3 / 20)) c8After
    [(0, .fin (13 / 20)), (2, .fin (7 / 20))] hok
  refine ⟨hok, ?_, h.2 (13 / 20) (by norm_num) (by norm_num)⟩
  exact h.1 0 (.fin (13 / 20)) (by simp) (by norm_num [c10State])

/-- The mount-and-drag trace for the C8 counterexample: two panes with
`initialSize='0.8fr'` each (a legal configuration), re-derivation, then a
drag of `+0.5`. -/
def c8Trace : List Ev :=
  [.regPane (.fr (.fin 0)) (some (.fin (4 / 5))) false (.fr (.fin 0)),
   .regSplitter (.fin 10),
   .regPane (.fr (.fin 0)) (some (.fin (4 / 5))) false (.fr (.fin 0)),
   .rederiveEv,
   .resolveEv 1 (.fin (1 / 2))]

/-- C8 counterexample: the exposed `aria-valuenow` is not confined to
`[0, 1]`.  After `c8Trace` the pane sizes are `0.8fr`/`0.8fr` and the drag
drives pane 0 to `1.3fr` with no clamp (its min is `0`), so the splitter
exposes `1.3` — the claim's range invariant fails at a reachable state. -/
theorem c8_aria_range_counterexample :
    getA 1 (run (.fin 1000) c8Trace).aria = some (.fin (13 / 10)) ∧
    getA 0 (run (.fin 1000) c8Trace).sizes = some (.fr (.fin (13 / 10))) ∧
    ¬ ((13 : ℚ) / 10 ≤ 1) := by
  have hrun : run (.fin 1000) c8Trace =
      ⟨[Child.pane (.fr (.fin 0)) (some (.fin (4 / 5))) false (.fr (.fin 0)),
        Child.splitter (.fin 10),
        Child.pane (.fr (.fin 0)) (some (.fin (4 / 5))) false (.fr (.fin 0))],
       [(0, .fr (.fin (13 / 10))), (1, .px (.fin 10)), (2, .fr (.fin (3 / 10)))],
       [(0, false), (2, false)],
       [(1, .fin (13 / 10))],
       none, .fin 1000⟩ := by
    norm_num [run, c8Trace, initState, step, rederive, rederiveAux, rederiveStep, paneCountOf,
      List.range, List.range.loop, List.foldl, List.filter,
      resizeByDelta, resolvePrev, scanPrev, resolveNext, scanNext,
      minSizeAsFrNumber, convertFrToNumber, convertPxToNumber, convertPxToFr, isPx,
      getChildSizeAsNumber, getPaneCollapsed, setPaneCollapsedFn, setChildSizeFn,
      clampPair, getA, setA, JsNum.lt, JsNum.le, JsNum.add, JsNum.sub, JsNum.neg,
      JsNum.div, JsNum.toFixed2, Child.isSplitter, Child.minSizeProp, Except.bind,
      Bind.bind, Pure.pure, Except.pure, Option.bind, Option.getD]
  rw [hrun]
  refine ⟨by norm_num [getA], by norm_num [getA], by norm_num⟩
